import Mathlib

/-!
# gcd v2 message layer: `gcdmessage.SendCustomReturn` and `gcdmessage.SendDefaultRequest`

A shallow embedding of `v2/gcdmessage/gcdmessage.go`.

* Byte slices that carry JSON text (`Message.Data`, the output of `json.Marshal`) are
  modelled as `Option String`: `none` is the nil slice, `some ""` the empty non-nil slice.
* `json` is `jsoniter.ConfigCompatibleWithStandardLibrary`. Its decoder is modelled on the
  texts of RFC 8259 nested at most 10000 deep: struct fields matched by their `json` tag
  without regard to (ASCII) case, unknown members skipped, `null` leaving a field untouched,
  a number for an `interface{}` accepted when it is in the range of float64, an escaped
  surrogate read the way jsoniter reads it (`unescapeUnit`). Where jsoniter accepts more than
  RFC 8259, as it does input that goes on after a NUL byte, the model reports an error. One
  check that jsoniter makes on a member it skips is not modelled: a skipped number with an
  exponent is converted to float64 and has to be in range.
* A float64 is kept as the literal it comes from; the conversion to the nearest float64
  (ties to even) is carried out where the value is encoded, the encoder writing the
  shortest decimal that converts back to the same float64.
* `gcdapi.DOMDebugger.GetEventListenersWithParams` is embedded as an example of a wrapper
  that decodes the reply itself.
* A `select` statement is resolved from a snapshot of which of its communications can
  proceed and from the scheduler's pick among them.
* The calls to the observer and the channel operations are recorded, in program order, in a
  trace.
-/

namespace Gcd

/-! ## JSON values -/

/-- A JSON number literal: sign, integer part, digits of the fraction (empty when there is
no fraction) and exponent. -/
structure JNumber where
  neg : Bool
  whole : Nat
  frac : List Nat
  exp : Option Int
deriving DecidableEq, Repr

/-- A JSON value as it stands in the text: object members in document order. -/
inductive Json where
  | null
  | bool (b : Bool)
  | num (n : JNumber)
  | str (s : String)
  | arr (xs : List Json)
  | obj (kvs : List (String × Json))
deriving Repr

/-- The integer literal for `i`. -/
def JNumber.ofInt (i : Int) : JNumber :=
  { neg := decide (i < 0), whole := i.natAbs, frac := [], exp := none }

def int64Min : Int := -9223372036854775808

def int64Max : Int := 9223372036854775807

/-- Decoding a number literal into an `int64`: only an integer literal (no fraction, no
exponent) within range is accepted. -/
def JNumber.toInt64 (n : JNumber) : Option Int :=
  if n.frac = [] ∧ n.exp = none then
    let v : Int := if n.neg then -(n.whole : Int) else (n.whole : Int)
    if int64Min ≤ v ∧ v ≤ int64Max then some v else none
  else none

/-- The number `2^1024 - 2^970`, half way between the largest float64 and `2^1024`: from
here on the conversion to float64 reports a range error. -/
def float64Overflow : Nat :=
  179769313486231580793728971405303415079934132710037826936173778980444968292764750946649017977587207096330286416692887910946555547851940402630657488671505820681908902000708383676273854845817711531764475730270069855571366959622842914819860834936475292719074168444365510704342711559699508093042880177904174497792

/-- Whether the literal converts to a float64. -/
def JNumber.inFloat64Range (n : JNumber) : Bool :=
  let m : Nat := n.whole * 10 ^ n.frac.length + n.frac.foldl (fun a d => a * 10 + d) 0
  let e : Int := n.exp.getD 0 - (n.frac.length : Int)
  if m = 0 then true
  else if 0 ≤ e then decide (m * 10 ^ e.toNat < float64Overflow)
  else decide (m < float64Overflow * 10 ^ (-e).toNat)

/-- Largest nesting of arrays and objects the decoder accepts. -/
def maxDepth : Nat := 10000

/-! ## JSON text: the lexical layer of `json.Unmarshal` -/

def dquote : Char := Char.ofNat 34

def backslash : Char := Char.ofNat 92

def isWs (c : Char) : Bool :=
  c.toNat = 32 || c.toNat = 9 || c.toNat = 10 || c.toNat = 13

def skipWs : List Char → List Char
  | [] => []
  | c :: cs => if isWs c then skipWs cs else c :: cs

def digitVal (c : Char) : Option Nat :=
  if 48 ≤ c.toNat ∧ c.toNat ≤ 57 then some (c.toNat - 48) else none

def hexVal (c : Char) : Option Nat :=
  if 48 ≤ c.toNat ∧ c.toNat ≤ 57 then some (c.toNat - 48)
  else if 97 ≤ c.toNat ∧ c.toNat ≤ 102 then some (c.toNat - 87)
  else if 65 ≤ c.toNat ∧ c.toNat ≤ 70 then some (c.toNat - 55)
  else none

/-- The longest run of decimal digits at the head of the input. -/
def takeDigits : List Char → List Nat × List Char
  | [] => ([], [])
  | c :: cs =>
    match digitVal c with
    | some d => (d :: (takeDigits cs).1, (takeDigits cs).2)
    | none => ([], c :: cs)

def natOfDigits (ds : List Nat) : Nat :=
  ds.foldl (fun a d => a * 10 + d) 0

/-- An optional leading `-`. -/
def takeMinus : List Char → Bool × List Char
  | [] => (false, [])
  | c :: rest => if c = '-' then (true, rest) else (false, c :: rest)

/-- The optional sign of an exponent. -/
def takeSign : List Char → Bool × List Char
  | [] => (false, [])
  | c :: rest =>
    if c = '-' then (true, rest) else if c = '+' then (false, rest) else (false, c :: rest)

/-- Integer part of a number: a single `0`, or a run of digits not starting with `0`. -/
def parseIntPart (cs : List Char) : Option (Nat × List Char) :=
  match cs with
  | [] => none
  | c :: rest =>
    if c = '0' then some (0, rest)
    else if (takeDigits (c :: rest)).1 = [] then none
    else some (natOfDigits (takeDigits (c :: rest)).1, (takeDigits (c :: rest)).2)

/-- Optional fraction: `.` followed by at least one digit. -/
def parseFrac (cs : List Char) : Option (List Nat × List Char) :=
  match cs with
  | [] => some ([], [])
  | c :: rest =>
    if c = '.' then
      if (takeDigits rest).1 = [] then none else some (takeDigits rest)
    else some ([], c :: rest)

/-- Optional exponent: `e` or `E`, an optional sign, at least one digit. -/
def parseExp (cs : List Char) : Option (Option Int × List Char) :=
  match cs with
  | [] => some (none, [])
  | c :: rest =>
    if c = 'e' ∨ c = 'E' then
      if (takeDigits (takeSign rest).2).1 = [] then none
      else
        some (some (if (takeSign rest).1
            then -(natOfDigits (takeDigits (takeSign rest).2).1 : Int)
            else (natOfDigits (takeDigits (takeSign rest).2).1 : Int)),
          (takeDigits (takeSign rest).2).2)
    else some (none, c :: rest)

def parseNumber (cs : List Char) : Option (JNumber × List Char) :=
  match parseIntPart (takeMinus cs).2 with
  | none => none
  | some (w, cs1) =>
    match parseFrac cs1 with
    | none => none
    | some (fs, cs2) =>
      match parseExp cs2 with
      | none => none
      | some (e, cs3) =>
        some ({ neg := (takeMinus cs).1, whole := w, frac := fs, exp := e }, cs3)

/-- Four hexadecimal digits of a `\u` escape. -/
def parseHex4 (cs : List Char) : Option (Nat × List Char) :=
  match cs with
  | a :: b :: c :: d :: rest =>
    match hexVal a, hexVal b, hexVal c, hexVal d with
    | some x, some y, some z, some w => some (((x * 16 + y) * 16 + z) * 16 + w, rest)
    | _, _, _, _ => none
  | _ => none

def replacementChar : Char := Char.ofNat 65533

/-- Whether a UTF-16 code unit is a surrogate (`utf16.IsSurrogate`). -/
def isSurrogate (n : Nat) : Bool := decide (55296 ≤ n ∧ n < 57344)

/-- The character written for the code unit `n` on its own: U+FFFD for a surrogate. -/
def appendRune (n : Nat) : Char :=
  if isSurrogate n then replacementChar else Char.ofNat n

/-- The character denoted by a one-letter escape. -/
def simpleEscape (e : Char) : Option Char :=
  if e = dquote then some dquote
  else if e = backslash then some backslash
  else if e = '/' then some '/'
  else if e = 'b' then some (Char.ofNat 8)
  else if e = 'f' then some (Char.ofNat 12)
  else if e = 'n' then some (Char.ofNat 10)
  else if e = 'r' then some (Char.ofNat 13)
  else if e = 't' then some (Char.ofNat 9)
  else none

/-- The characters of a `\u` escape whose code unit is `n`, and what is left of the input
`rest` that follows the escape, as jsoniter reads them (`readEscapedChar`). A code unit that
is no surrogate is its character. After a surrogate, high or low, the decoder looks at what
follows: another `\u` escape is read with it, the two making one character when they are a
high and a low surrogate, and otherwise one character each (U+FFFD for a surrogate); a
one-letter escape is read after U+FFFD; anything else leaves just U+FFFD. -/
def unescapeUnit (n : Nat) (rest : List Char) : Option (List Char × List Char) :=
  if isSurrogate n then
    match rest with
    | [] => none
    | b :: more =>
      if b = backslash then
        match more with
        | [] => none
        | e :: more1 =>
          if e = 'u' then
            match parseHex4 more1 with
            | some (m, rest2) =>
              if n < 56320 ∧ 56320 ≤ m ∧ m < 57344 then
                some ([Char.ofNat (65536 + (n - 55296) * 1024 + (m - 56320))], rest2)
              else some ([replacementChar, appendRune m], rest2)
            | none => none
          else
            match simpleEscape e with
            | some x => some ([replacementChar, x], more1)
            | none => none
      else some ([replacementChar], b :: more)
  else some ([Char.ofNat n], rest)

/-- The character of a `\u` escape by RFC 8259, for a text that keeps to Unicode: a code unit
that is no surrogate is its character, a high surrogate makes one character with the escaped
low surrogate that follows it, and a surrogate without its partner denotes no character. -/
def unescapePaired (n : Nat) (rest : List Char) : Option (List Char × List Char) :=
  if isSurrogate n then
    if n < 56320 then
      match rest with
      | b :: e :: more1 =>
        if b = backslash ∧ e = 'u' then
          match parseHex4 more1 with
          | some (m, rest2) =>
            if 56320 ≤ m ∧ m < 57344 then
              some ([Char.ofNat (65536 + (n - 55296) * 1024 + (m - 56320))], rest2)
            else none
          | none => none
        else none
      | _ => none
    else none
  else some ([Char.ofNat n], rest)

/-- A reading of `\u` escapes never hands back more input than it was given. -/
def Shrinks (unesc : Nat → List Char → Option (List Char × List Char)) : Prop :=
  ∀ n rest cs rest1, unesc n rest = some (cs, rest1) → rest1.length ≤ rest.length

/-- The body of a string literal, after its opening quote; `acc` holds the characters read
so far, last first, and `unesc` reads a `\u` escape from its code unit and what follows. -/
def parseString (unesc : Nat → List Char → Option (List Char × List Char)) :
    Nat → List Char → List Char → Option (String × List Char)
  | 0, _, _ => none
  | _ + 1, [], _ => none
  | fuel + 1, c :: cs, acc =>
    if c = dquote then some (String.mk acc.reverse, cs)
    else if c = backslash then
      match cs with
      | [] => none
      | e :: rest =>
        if e = 'u' then
          match parseHex4 rest with
          | some (n, rest2) =>
            match unesc n rest2 with
            | some (chars, rest3) => parseString unesc fuel rest3 (chars.reverse ++ acc)
            | none => none
          | none => none
        else
          match simpleEscape e with
          | some x => parseString unesc fuel rest (x :: acc)
          | none => none
    else if c.toNat < 32 then none
    else parseString unesc fuel cs (c :: acc)

/-- A value that is neither a string, an object nor an array, from its first character `c`
on: `null`, `true`, `false` or a number. -/
def parseLiteral (c : Char) (rest : List Char) : Option (Json × List Char) :=
  if c = 'n' then
    match rest with
    | 'u' :: 'l' :: 'l' :: rest1 => some (Json.null, rest1)
    | _ => none
  else if c = 't' then
    match rest with
    | 'r' :: 'u' :: 'e' :: rest1 => some (Json.bool true, rest1)
    | _ => none
  else if c = 'f' then
    match rest with
    | 'a' :: 'l' :: 's' :: 'e' :: rest1 => some (Json.bool false, rest1)
    | _ => none
  else
    match parseNumber (c :: rest) with
    | some (n, rest1) => some (Json.num n, rest1)
    | none => none

mutual
/-- One JSON value at the head of the input (after white space), and the rest of the input;
`depth` counts the arrays and objects the value stands in, `unesc` reads the `\u` escapes of
its strings. -/
def parseValue (unesc : Nat → List Char → Option (List Char × List Char)) :
    Nat → Nat → List Char → Option (Json × List Char)
  | 0, _, _ => none
  | fuel + 1, depth, cs =>
    match skipWs cs with
    | [] => none
    | c :: rest =>
      if c = dquote then
        match parseString unesc rest.length rest [] with
        | some (s, rest1) => some (Json.str s, rest1)
        | none => none
      else if c = '{' then
        if maxDepth ≤ depth then none
        else
          match skipWs rest with
          | [] => none
          | d :: rest1 =>
            if d = '}' then some (Json.obj [], rest1)
            else
              match parseMembers unesc fuel (depth + 1) (d :: rest1) with
              | some (kvs, rest2) => some (Json.obj kvs, rest2)
              | none => none
      else if c = '[' then
        if maxDepth ≤ depth then none
        else
          match skipWs rest with
          | [] => none
          | d :: rest1 =>
            if d = ']' then some (Json.arr [], rest1)
            else
              match parseElements unesc fuel (depth + 1) (d :: rest1) with
              | some (xs, rest2) => some (Json.arr xs, rest2)
              | none => none
      else parseLiteral c rest
/-- The members of an object after `{`, up to and including the closing `}`. -/
def parseMembers (unesc : Nat → List Char → Option (List Char × List Char)) :
    Nat → Nat → List Char → Option (List (String × Json) × List Char)
  | 0, _, _ => none
  | fuel + 1, depth, cs =>
    match skipWs cs with
    | [] => none
    | c :: rest =>
      if c = dquote then
        match parseString unesc rest.length rest [] with
        | none => none
        | some (k, rest1) =>
          match skipWs rest1 with
          | [] => none
          | d :: rest2 =>
            if d = ':' then
              match parseValue unesc fuel depth rest2 with
              | none => none
              | some (v, rest3) =>
                match skipWs rest3 with
                | [] => none
                | e :: rest4 =>
                  if e = ',' then
                    match parseMembers unesc fuel depth rest4 with
                    | some (kvs, rest5) => some ((k, v) :: kvs, rest5)
                    | none => none
                  else if e = '}' then some ([(k, v)], rest4)
                  else none
            else none
      else none
/-- The elements of an array after `[`, up to and including the closing `]`. -/
def parseElements (unesc : Nat → List Char → Option (List Char × List Char)) :
    Nat → Nat → List Char → Option (List Json × List Char)
  | 0, _, _ => none
  | fuel + 1, depth, cs =>
    match parseValue unesc fuel depth cs with
    | none => none
    | some (v, rest) =>
      match skipWs rest with
      | [] => none
      | e :: rest1 =>
        if e = ',' then
          match parseElements unesc fuel depth rest1 with
          | some (xs, rest2) => some (v :: xs, rest2)
          | none => none
        else if e = ']' then some ([v], rest1)
        else none
end

/-- A whole JSON text as the decoder reads it: one value, surrounded by optional white space
and nothing else. The fuel is more than the parser can use: every recursive call but the one
from `parseElements` to `parseValue` comes after at least one character was consumed. -/
def parseJson (data : String) : Option Json :=
  match parseValue unescapeUnit (2 * data.length + 2) 0 data.toList with
  | some (v, rest) => if skipWs rest = [] then some v else none
  | none => none

/-- The JSON value that a text denotes by RFC 8259, for a text that keeps to Unicode and is
nested at most 10000 deep: the grammar is the one of `parseJson`, but a string is the
sequence of the characters written, so that an escaped surrogate has to stand in a pair. A
text with an escaped surrogate that has no partner denotes no value here. -/
def denoteJson (data : String) : Option Json :=
  match parseValue unescapePaired (2 * data.length + 2) 0 data.toList with
  | some (v, rest) => if skipWs rest = [] then some v else none
  | none => none

/-! ## Decoding into Go values -/

/-- What `json.Unmarshal` stores in an `interface{}`: nil, bool, float64 (kept as the number
literal it is converted from), string, `[]interface{}` or `map[string]interface{}`. A map is
listed by key in order of first insertion and holds each key once. -/
inductive GoValue where
  | nil
  | bool (b : Bool)
  | float64 (n : JNumber)
  | string (s : String)
  | slice (xs : List GoValue)
  | map (kvs : List (String × GoValue))
deriving Repr

/-- The map assignment `m[k] = v`. -/
def mapInsert (k : String) (v : GoValue) : List (String × GoValue) → List (String × GoValue)
  | [] => [(k, v)]
  | (k1, v1) :: rest => if k1 = k then (k, v) :: rest else (k1, v1) :: mapInsert k v rest

mutual
/-- Decoding a JSON value into an empty `interface{}`; `none` when a number is out of the
range of float64. -/
def decodeAny : Json → Option GoValue
  | Json.null => some GoValue.nil
  | Json.bool b => some (GoValue.bool b)
  | Json.num n => if n.inFloat64Range then some (GoValue.float64 n) else none
  | Json.str s => some (GoValue.string s)
  | Json.arr xs =>
    match decodeElements xs with
    | some vs => some (GoValue.slice vs)
    | none => none
  | Json.obj kvs =>
    match decodeMembers kvs [] with
    | some m => some (GoValue.map m)
    | none => none
def decodeElements : List Json → Option (List GoValue)
  | [] => some []
  | x :: xs =>
    match decodeAny x, decodeElements xs with
    | some v, some vs => some (v :: vs)
    | _, _ => none
/-- Members are assigned into the map in document order: a repeated key keeps its last
value. -/
def decodeMembers :
    List (String × Json) → List (String × GoValue) → Option (List (String × GoValue))
  | [], m => some m
  | (k, v) :: rest, m =>
    match decodeAny v with
    | some g => decodeMembers rest (mapInsert k g m)
    | none => none
end

/-- Whether an object key selects the struct field with the given `json` tag. -/
def fieldMatch (key tag : String) : Bool :=
  key.toList.map Char.toLower = tag.toList.map Char.toLower

/-! ## The types of `gcdmessage.go` -/

/-- An error object returned from a request. -/
structure ChromeError where
  Code : Int
  Message : String
deriving DecidableEq, Repr

/-- The error response of chrome to an invalid request; `Error` is a pointer. -/
structure ChromeErrorResponse where
  Id : Int
  Error : Option ChromeError
deriving DecidableEq, Repr

/-- The default response object: the id and a result if applicable. -/
structure ChromeResponse where
  Id : Int
  Result : GoValue
deriving Repr

/-- The `error` values that occur: those of `errors.New`, those of the JSON library, and
the error types declared in `gcdmessage.go`. -/
inductive GoError where
  | New (text : String)
  | JsonMarshal (text : String)
  | JsonUnmarshal
  | ChromeRequestErr (Resp : Option ChromeErrorResponse)
  | ChromeEmptyResponseErr
  | ChromeApiTimeoutErr
  | ChromeDoneErr
  | ChromeCtxDoneErr
deriving DecidableEq, Repr

/-- A channel made by `make(chan *Message, cap)`: its identity and its capacity. -/
structure Chan where
  addr : Nat
  cap : Nat
deriving DecidableEq, Repr

/-- The internal message object; `Target` is a reference to the ChromeTarget. -/
structure Message where
  ReplyCh : Option Chan
  Id : Int
  Data : Option String
  Method : String
  Target : Option Nat
deriving DecidableEq, Repr

/-- The dynamic value of a `Params interface{}` field, by what `json.Marshal` makes of it:
the nil interface, a value that encodes to the given JSON text, or a value the encoder
rejects with the given error. The error stands for the one that `json.Marshal` returns for
the struct that holds the value; jsoniter writes the names of that struct and of the field
in front of its text, which is not modelled. -/
inductive ParamsValue where
  | nil
  | encodes (text : String)
  | fails (err : GoError)
deriving DecidableEq, Repr

/-- The default request object that has parameters. -/
structure ParamRequest where
  Id : Int
  Method : String
  Params : ParamsValue
deriving DecidableEq, Repr

/-- The default no-arg request. -/
structure ChromeRequest where
  Id : Int
  Method : String
  Params : ParamsValue
deriving DecidableEq, Repr

/-! ## `json.Marshal` of the request structs -/

inductive FieldValue where
  | int64 (i : Int)
  | string (s : String)
  | bool (b : Bool)
  | iface (v : ParamsValue)
deriving DecidableEq, Repr

/-- A struct field as the encoder sees it: the name in its `json` tag, whether the tag has
`omitempty`, and the value. -/
structure Field where
  tag : String
  omitempty : Bool
  value : FieldValue
deriving DecidableEq, Repr

/-- Fields of `ParamRequest`: `json:"id"`, `json:"method"`, `json:"params,omitempty"`. -/
def ParamRequest.fields (r : ParamRequest) : List Field :=
  [⟨"id", false, FieldValue.int64 r.Id⟩,
   ⟨"method", false, FieldValue.string r.Method⟩,
   ⟨"params", true, FieldValue.iface r.Params⟩]

/-- Fields of `ChromeRequest`: `json:"id"`, `json:"method"`, `json:"params,omitempty"`. -/
def ChromeRequest.fields (r : ChromeRequest) : List Field :=
  [⟨"id", false, FieldValue.int64 r.Id⟩,
   ⟨"method", false, FieldValue.string r.Method⟩,
   ⟨"params", true, FieldValue.iface r.Params⟩]

/-- The base-10 text of `strconv.FormatInt(i, 10)`. -/
def FormatInt (i : Int) : String :=
  if i < 0 then "-" ++ Nat.repr i.natAbs else Nat.repr i.natAbs

def hexDigit (n : Nat) : Char :=
  if n < 10 then Char.ofNat (48 + n) else Char.ofNat (87 + n)

/-- The escape `\u00XX` or `\uXXXX` of a code unit below 65536. -/
def unicodeEscape (n : Nat) : List Char :=
  [backslash, 'u', hexDigit (n / 4096 % 16), hexDigit (n / 256 % 16), hexDigit (n / 16 % 16),
   hexDigit (n % 16)]

/-- One character of a string as the encoder writes it, HTML escaping on. -/
def escapeChar (c : Char) : List Char :=
  if c = dquote then [backslash, dquote]
  else if c = backslash then [backslash, backslash]
  else if c.toNat = 10 then [backslash, 'n']
  else if c.toNat = 13 then [backslash, 'r']
  else if c.toNat = 9 then [backslash, 't']
  else if c.toNat < 32 then unicodeEscape c.toNat
  else if c = '<' ∨ c = '>' ∨ c = '&' then unicodeEscape c.toNat
  else if c.toNat = 8232 ∨ c.toNat = 8233 then unicodeEscape c.toNat
  else [c]

def quoteString (s : String) : List Char :=
  dquote :: (s.toList.flatMap escapeChar ++ [dquote])

def FieldValue.isEmpty : FieldValue → Bool
  | FieldValue.int64 i => decide (i = 0)
  | FieldValue.string s => decide (s = "")
  | FieldValue.bool b => !b
  | FieldValue.iface v => decide (v = ParamsValue.nil)

def encodeValue : FieldValue → Except GoError (List Char)
  | FieldValue.int64 i => Except.ok (FormatInt i).toList
  | FieldValue.string s => Except.ok (quoteString s)
  | FieldValue.bool b => Except.ok (if b then "true".toList else "false".toList)
  | FieldValue.iface ParamsValue.nil => Except.ok "null".toList
  | FieldValue.iface (ParamsValue.encodes text) => Except.ok text.toList
  | FieldValue.iface (ParamsValue.fails err) => Except.error err

/-- The members written for the listed fields; `first` tells whether none was written yet. -/
def encodeFields : List Field → Bool → Except GoError (List Char)
  | [], _ => Except.ok []
  | f :: rest, first =>
    if f.omitempty && f.value.isEmpty then encodeFields rest first
    else
      match encodeValue f.value with
      | Except.error e => Except.error e
      | Except.ok v =>
        match encodeFields rest false with
        | Except.error e => Except.error e
        | Except.ok more =>
          Except.ok ((if first then [] else [',']) ++ quoteString f.tag ++ [':'] ++ v ++ more)

/-- The call `json.Marshal(&s)` for a struct `s` with the given fields. -/
def jsonMarshal (fields : List Field) : Except GoError String :=
  match encodeFields fields true with
  | Except.error e => Except.error e
  | Except.ok body => Except.ok (String.mk ('{' :: (body ++ ['}'])))

/-! ## `json.Unmarshal` into `*ChromeResponse` -/

/-- Decoding a value into an `int64` field holding `old`: `null` leaves it as it is. -/
def decodeInt64 (v : Json) (old : Int) : Option Int :=
  match v with
  | Json.null => some old
  | Json.num n => n.toInt64
  | _ => none

/-- Members of the object are taken in document order; `json:"id"` goes to `Id`,
`json:"result"` to `Result`, any other member is skipped. -/
def decodeChromeResponseFields : List (String × Json) → ChromeResponse → Option ChromeResponse
  | [], r => some r
  | (k, v) :: rest, r =>
    if fieldMatch k "id" then
      match decodeInt64 v r.Id with
      | some i => decodeChromeResponseFields rest { r with Id := i }
      | none => none
    else if fieldMatch k "result" then
      match decodeAny v with
      | some g => decodeChromeResponseFields rest { r with Result := g }
      | none => none
    else decodeChromeResponseFields rest r

/-- The call `json.Unmarshal(data, chromeResponse)` with `chromeResponse := &ChromeResponse{}`:
the decoded struct, or the error of the decoder. -/
def unmarshalChromeResponse (data : String) : Except GoError ChromeResponse :=
  match parseJson data with
  | none => Except.error GoError.JsonUnmarshal
  | some Json.null => Except.ok { Id := 0, Result := GoValue.nil }
  | some (Json.obj kvs) =>
    match decodeChromeResponseFields kvs { Id := 0, Result := GoValue.nil } with
    | some r => Except.ok r
    | none => Except.error GoError.JsonUnmarshal
  | some _ => Except.error GoError.JsonUnmarshal

/-! ## `select`, the environment of a call, and its trace -/

/-- The communications of the two `select` statements. -/
inductive SelectCase where
  | ctxDone
  | comm
  | timer
  | targetDone
deriving DecidableEq, Repr

/-- Which communications of a `select` can proceed when it is resolved: `<-ctx.Done()`,
the channel operation of the phase (`sendCh <- sendMsg`, `<-recvCh`),
`<-time.After(target.GetApiTimeout())` and `<-target.GetDoneCh()`. -/
structure Ready where
  ctxDone : Bool
  comm : Bool
  timer : Bool
  targetDone : Bool
deriving DecidableEq, Repr

/-- A `select` without default: among the cases that can proceed one is chosen by the
scheduler (`pick`, uniformly at random in Go). When none of the listed cases is marked as
able to proceed the statement waits, and the wait is ended by the timer. -/
def goSelect (cases : List (Bool × SelectCase)) (pick : Nat) : SelectCase :=
  let ready := (cases.filter (fun c => c.1)).map (fun c => c.2)
  ready.getD (pick % ready.length) SelectCase.timer

/-- The first `select`, cases in source order. -/
def selectSend (r : Ready) (pick : Nat) : SelectCase :=
  goSelect [(r.ctxDone, SelectCase.ctxDone), (r.comm, SelectCase.comm),
    (r.timer, SelectCase.timer), (r.targetDone, SelectCase.targetDone)] pick

/-- The second `select`, cases in source order. -/
def selectRecv (r : Ready) (pick : Nat) : SelectCase :=
  goSelect [(r.ctxDone, SelectCase.ctxDone), (r.timer, SelectCase.timer),
    (r.comm, SelectCase.comm), (r.targetDone, SelectCase.targetDone)] pick

/-- What a call meets outside itself (`target`, `ctx`, `sendCh`, the scheduler and the
allocator): the state of each `select` when it is resolved, the value `<-recvCh` yields
(`none` is the nil `*Message`), and the identity of the channel `make` returns. -/
structure Env where
  sendReady : Ready
  sendPick : Nat
  recvReady : Ready
  recvPick : Nat
  reply : Option Message
  newChan : Nat
deriving DecidableEq, Repr

/-- The effects of a call, in program order. -/
inductive Event where
  | MakeChan (ch : Chan)
  | ObserveRequest (id : Int) (method : String) (data : Option String) (err : Option GoError)
  | ObserveResponse (id : Int) (method : String) (data : Option String) (err : Option GoError)
  | Send (msg : Message)
  | Recv (ch : Chan) (msg : Option Message)
  | Unmarshal (data : String)
deriving DecidableEq, Repr

/-- The two results of a call, `none` being nil, and the trace of the call. -/
structure Returned (α : Type) where
  value : Option α
  err : Option GoError
  trace : List Event

/-! ## The two primitives -/

/-- Takes in a ParamRequest and gives back the reply message so the caller can decode as
necessary. -/
def SendCustomReturn (env : Env) (paramRequest : ParamRequest) : Returned Message :=
  match jsonMarshal paramRequest.fields with
  | Except.error err =>
    ⟨none, some err,
      [Event.ObserveRequest paramRequest.Id paramRequest.Method none (some err)]⟩
  | Except.ok data =>
    let recvCh : Chan := ⟨env.newChan, 1⟩
    let sendMsg : Message :=
      { ReplyCh := some recvCh, Id := paramRequest.Id, Data := some data, Method := "",
        Target := none }
    match selectSend env.sendReady env.sendPick with
    | SelectCase.ctxDone =>
      ⟨none, some GoError.ChromeCtxDoneErr,
        [Event.MakeChan recvCh,
         Event.ObserveRequest paramRequest.Id paramRequest.Method (some data)
           (some (GoError.New "context is done"))]⟩
    | SelectCase.timer =>
      ⟨none, some GoError.ChromeApiTimeoutErr,
        [Event.MakeChan recvCh,
         Event.ObserveRequest paramRequest.Id paramRequest.Method (some data)
           (some (GoError.New "message timed out"))]⟩
    | SelectCase.targetDone =>
      ⟨none, some GoError.ChromeDoneErr,
        [Event.MakeChan recvCh,
         Event.ObserveRequest paramRequest.Id paramRequest.Method (some data)
           (some (GoError.New "chrome is done"))]⟩
    | SelectCase.comm =>
      let sent : List Event :=
        [Event.MakeChan recvCh, Event.Send sendMsg,
         Event.ObserveRequest paramRequest.Id paramRequest.Method (some data) none]
      match selectRecv env.recvReady env.recvPick with
      | SelectCase.ctxDone =>
        ⟨none, some GoError.ChromeCtxDoneErr,
          sent ++ [Event.ObserveResponse paramRequest.Id paramRequest.Method none
            (some (GoError.New "chrome is done"))]⟩
      | SelectCase.timer =>
        ⟨none, some GoError.ChromeApiTimeoutErr,
          sent ++ [Event.ObserveResponse paramRequest.Id paramRequest.Method none
            (some (GoError.New "timed out waiting for response"))]⟩
      | SelectCase.targetDone =>
        ⟨none, some GoError.ChromeDoneErr,
          sent ++ [Event.ObserveResponse paramRequest.Id paramRequest.Method none
            (some (GoError.New "chrome is done"))]⟩
      | SelectCase.comm =>
        let resp : Option Message := env.reply
        let responseData : Option String :=
          match resp with
          | some m => m.Data
          | none => none
        ⟨resp, none,
          sent ++ [Event.Recv recvCh resp,
            Event.ObserveResponse paramRequest.Id paramRequest.Method responseData none]⟩

/-- Sends a generic request that gets back a generic response, or error. -/
def SendDefaultRequest (env : Env) (paramRequest : ParamRequest) : Returned ChromeResponse :=
  let req : ChromeRequest :=
    { Id := paramRequest.Id, Method := paramRequest.Method, Params := paramRequest.Params }
  match jsonMarshal req.fields with
  | Except.error err =>
    ⟨none, some err,
      [Event.ObserveRequest paramRequest.Id paramRequest.Method none (some err)]⟩
  | Except.ok data =>
    let recvCh : Chan := ⟨env.newChan, 1⟩
    let sendMsg : Message :=
      { ReplyCh := some recvCh, Id := paramRequest.Id, Data := some data, Method := "",
        Target := none }
    match selectSend env.sendReady env.sendPick with
    | SelectCase.ctxDone =>
      ⟨none, some GoError.ChromeCtxDoneErr,
        [Event.MakeChan recvCh,
         Event.ObserveRequest paramRequest.Id paramRequest.Method (some data)
           (some (GoError.New "context is done"))]⟩
    | SelectCase.timer =>
      ⟨none, some GoError.ChromeApiTimeoutErr,
        [Event.MakeChan recvCh,
         Event.ObserveRequest paramRequest.Id paramRequest.Method (some data)
           (some (GoError.New "message timed out"))]⟩
    | SelectCase.targetDone =>
      ⟨none, some GoError.ChromeDoneErr,
        [Event.MakeChan recvCh,
         Event.ObserveRequest paramRequest.Id paramRequest.Method (some data)
           (some (GoError.New "chrome is done"))]⟩
    | SelectCase.comm =>
      let sent : List Event :=
        [Event.MakeChan recvCh, Event.Send sendMsg,
         Event.ObserveRequest paramRequest.Id paramRequest.Method (some data) none]
      match selectRecv env.recvReady env.recvPick with
      | SelectCase.ctxDone =>
        ⟨none, some GoError.ChromeCtxDoneErr,
          sent ++ [Event.ObserveResponse paramRequest.Id paramRequest.Method none
            (some (GoError.New "context is done"))]⟩
      | SelectCase.timer =>
        ⟨none, some GoError.ChromeApiTimeoutErr,
          sent ++ [Event.ObserveResponse paramRequest.Id paramRequest.Method none
            (some (GoError.New "timed out waiting for response"))]⟩
      | SelectCase.targetDone =>
        ⟨none, some GoError.ChromeDoneErr,
          sent ++ [Event.ObserveResponse paramRequest.Id paramRequest.Method none
            (some (GoError.New "chrome is done"))]⟩
      | SelectCase.comm =>
        let resp : Option Message := env.reply
        let responseData : Option String :=
          match resp with
          | some m => m.Data
          | none => none
        let received : List Event :=
          sent ++ [Event.Recv recvCh resp,
            Event.ObserveResponse paramRequest.Id paramRequest.Method responseData none]
        match resp with
        | none => ⟨none, some GoError.ChromeEmptyResponseErr, received⟩
        | some m =>
          match m.Data with
          | none => ⟨none, some GoError.ChromeEmptyResponseErr, received⟩
          | some bytes =>
            match unmarshalChromeResponse bytes with
            | Except.error err => ⟨none, some err, received ++ [Event.Unmarshal bytes]⟩
            | Except.ok chromeResponse =>
              ⟨some chromeResponse, none, received ++ [Event.Unmarshal bytes]⟩

/-! ## Vocabulary of the statements -/

def IsInt64 (i : Int) : Prop := int64Min ≤ i ∧ i ≤ int64Max

instance (i : Int) : Decidable (IsInt64 i) := by unfold IsInt64; infer_instance

/-- The success envelope with id `i` and result `r`, members in the order of the wire
format. -/
def successEnvelope (i : Int) (r : Json) : Json :=
  Json.obj [("id", Json.num (JNumber.ofInt i)), ("result", r)]

/-- The success envelope with id `i` and result `r`, its two members in the other order. -/
def successEnvelopeSwapped (i : Int) (r : Json) : Json :=
  Json.obj [("result", r), ("id", Json.num (JNumber.ofInt i))]

/-- The value `x` is the success envelope with id `i` and result `r`: the object of the two
members `id`, the integer literal of `i`, and `result`, in either order. -/
def IsSuccessEnvelope (x : Json) (i : Int) (r : Json) : Prop :=
  x = successEnvelope i r ∨ x = successEnvelopeSwapped i r

/-- The failure envelope with id `i`, error code `c` and error message `m`, members in the
order of the wire format. -/
def errorEnvelope (i c : Int) (m : String) : Json :=
  Json.obj [("id", Json.num (JNumber.ofInt i)),
    ("error", Json.obj [("code", Json.num (JNumber.ofInt c)), ("message", Json.str m)])]

/-- The request is serialized, the outbound channel accepts the message, and the reply
channel then delivers `resp` (`none` is the nil message). -/
def Delivers (env : Env) (paramRequest : ParamRequest) (resp : Option Message) : Prop :=
  (∃ data, jsonMarshal paramRequest.fields = Except.ok data) ∧
  selectSend env.sendReady env.sendPick = SelectCase.comm ∧
  selectRecv env.recvReady env.recvPick = SelectCase.comm ∧
  env.reply = resp

/-- An environment in which only the outbound channel is ready in the send phase and only
the reply channel, holding `resp`, in the receive phase. -/
def deliveringEnv (resp : Option Message) : Env :=
  { sendReady := ⟨false, true, false, false⟩, sendPick := 0,
    recvReady := ⟨false, true, false, false⟩, recvPick := 0,
    reply := resp, newChan := 1 }

/-- A message as the dispatcher writes it into a reply channel. -/
def replyMessage (id : Int) (data : Option String) : Message :=
  { ReplyCh := none, Id := id, Data := data, Method := "", Target := none }

/-- The reply text `{"id":1,"result":{"x":1}}`. -/
def resultReply : String := "\x7b\"id\":1,\"result\":\x7b\"x\":1\x7d\x7d"

/-- The reply text
`{"id":5,"error":{"code":-32000,"message":"No node with given id found"}}`. -/
def errorReply : String :=
  "\x7b\"id\":5,\"error\":\x7b\"code\":-32000,\"message\":\"No node with given id found\"\x7d\x7d"

/-- The call of scenario 1: id 1, method `Foo.bar`, no parameters. -/
def fooRequest : ParamRequest := { Id := 1, Method := "Foo.bar", Params := ParamsValue.nil }

/-- A call with id 5 whose parameters encode to `{"nodeId":99}`. -/
def nodeRequest : ParamRequest :=
  { Id := 5, Method := "DOM.describeNode",
    Params := ParamsValue.encodes "\x7b\"nodeId\":99\x7d" }

/-- A call whose parameters the encoder rejects. -/
def chanRequest : ParamRequest :=
  { Id := 3, Method := "Foo.bar",
    Params := ParamsValue.fails (GoError.JsonMarshal "json: unsupported type: chan int") }

/-- The state of a `select` in which exactly the case `c` can proceed. -/
def Ready.only (c : SelectCase) : Ready :=
  { ctxDone := decide (c = SelectCase.ctxDone), comm := decide (c = SelectCase.comm),
    timer := decide (c = SelectCase.timer), targetDone := decide (c = SelectCase.targetDone) }

/-- An environment in which exactly `s` can proceed in the send phase and exactly `r` in
the receive phase, the reply channel holding `resp`. -/
def phaseEnv (s r : SelectCase) (resp : Option Message) : Env :=
  { sendReady := Ready.only s, sendPick := 0, recvReady := Ready.only r, recvPick := 0,
    reply := resp, newChan := 1 }

/-- The context is cancelled from the start while the outbound channel can accept the
message: the scheduler picks the send. In the receive phase the context is still the only
case that can proceed. -/
def cancelledSendEnv : Env :=
  { sendReady := ⟨true, true, false, false⟩, sendPick := 1,
    recvReady := ⟨true, false, false, false⟩, recvPick := 0,
    reply := none, newChan := 1 }

/-- As `cancelledSendEnv`, but the reply is already waiting when the receive phase begins,
and the scheduler picks the receive. -/
def cancelledReplyEnv : Env :=
  { sendReady := ⟨true, true, false, false⟩, sendPick := 1,
    recvReady := ⟨true, true, false, false⟩, recvPick := 1,
    reply := some (replyMessage 1 (some resultReply)), newChan := 1 }

/-- The message is sent; in the receive phase the done channel of the target is closed
while a reply is waiting in the reply channel, and the scheduler picks the receive. -/
def shutdownReplyEnv : Env :=
  { sendReady := ⟨false, true, false, false⟩, sendPick := 0,
    recvReady := ⟨false, true, false, true⟩, recvPick := 0,
    reply := some (replyMessage 1 (some resultReply)), newChan := 1 }

/-- The done channel of the target is closed when the send phase begins while the context
is cancelled as well, and the scheduler picks the context. -/
def shutdownCancelledEnv : Env :=
  { sendReady := ⟨true, false, false, true⟩, sendPick := 0,
    recvReady := ⟨true, false, false, true⟩, recvPick := 0,
    reply := none, newChan := 1 }

def Event.isRequest : Event → Bool
  | Event.ObserveRequest _ _ _ _ => true
  | _ => false

def Event.isResponse : Event → Bool
  | Event.ObserveResponse _ _ _ _ => true
  | _ => false

def Event.isSend : Event → Bool
  | Event.Send _ => true
  | _ => false

def Event.isRecv : Event → Bool
  | Event.Recv _ _ => true
  | _ => false

/-- The error argument of a notification. -/
def Event.noteErr : Event → Option GoError
  | Event.ObserveRequest _ _ _ err => err
  | Event.ObserveResponse _ _ _ err => err
  | _ => none

/-- The calls to the observer in a trace, in order. -/
def notifications (tr : List Event) : List Event :=
  tr.filter (fun e => e.isRequest || e.isResponse)

/-- The request is serialized and the outbound channel accepts the message. -/
def SendPhaseOk (env : Env) (paramRequest : ParamRequest) : Prop :=
  (∃ data, jsonMarshal paramRequest.fields = Except.ok data) ∧
  selectSend env.sendReady env.sendPick = SelectCase.comm

/-- The send phase succeeds and the reply channel delivers. -/
def RecvPhaseOk (env : Env) (paramRequest : ParamRequest) : Prop :=
  SendPhaseOk env paramRequest ∧ selectRecv env.recvReady env.recvPick = SelectCase.comm

/-- What a trace has to look like for C10: one Request notification, then one Response
notification exactly when the message was sent, each with a nil error exactly when its
phase succeeded. -/
def NotifiedOncePerPhase (env : Env) (paramRequest : ParamRequest) (tr : List Event) : Prop :=
  (tr.filter Event.isRequest).length = 1 ∧
  (tr.filter Event.isResponse).length = (if tr.any Event.isSend then 1 else 0) ∧
  (tr.any Event.isSend = true ↔ SendPhaseOk env paramRequest) ∧
  (∃ q, q.isRequest = true ∧
    (notifications tr = [q] ∨ ∃ p, p.isResponse = true ∧ notifications tr = [q, p])) ∧
  (∀ e ∈ tr, e.isRequest = true → (e.noteErr = none ↔ SendPhaseOk env paramRequest)) ∧
  (∀ e ∈ tr, e.isResponse = true → (e.noteErr = none ↔ RecvPhaseOk env paramRequest))

/-- The call returns a nil first result together with the error `e`. -/
def Returned.Fails {α : Type} (r : Returned α) (e : GoError) : Prop :=
  r.value = none ∧ r.err = some e

/-- The three shapes of the trace of a call whose request is serialized to `data`: the send
phase fails; the message is sent and the receive phase fails; the message is sent and a
reply is received, after which only calls of the decoder follow. -/
def TraceShape (env : Env) (paramRequest : ParamRequest) (data : String)
    (tr : List Event) : Prop :=
  (selectSend env.sendReady env.sendPick ≠ SelectCase.comm ∧ ∃ e,
    tr = [Event.MakeChan ⟨env.newChan, 1⟩,
      Event.ObserveRequest paramRequest.Id paramRequest.Method (some data) (some e)]) ∨
  (selectSend env.sendReady env.sendPick = SelectCase.comm ∧
    selectRecv env.recvReady env.recvPick ≠ SelectCase.comm ∧ ∃ e,
    tr = [Event.MakeChan ⟨env.newChan, 1⟩,
      Event.Send (Message.mk (some ⟨env.newChan, 1⟩) paramRequest.Id (some data) "" none),
      Event.ObserveRequest paramRequest.Id paramRequest.Method (some data) none,
      Event.ObserveResponse paramRequest.Id paramRequest.Method none (some e)]) ∨
  (selectSend env.sendReady env.sendPick = SelectCase.comm ∧
    selectRecv env.recvReady env.recvPick = SelectCase.comm ∧ ∃ tail,
    tr = [Event.MakeChan ⟨env.newChan, 1⟩,
      Event.Send (Message.mk (some ⟨env.newChan, 1⟩) paramRequest.Id (some data) "" none),
      Event.ObserveRequest paramRequest.Id paramRequest.Method (some data) none,
      Event.Recv ⟨env.newChan, 1⟩ env.reply,
      Event.ObserveResponse paramRequest.Id paramRequest.Method
        (match env.reply with
          | some m => m.Data
          | none => none) none] ++ tail ∧
    ∀ x ∈ tail, ∃ bytes, x = Event.Unmarshal bytes)

/-! ## The error text of `ChromeRequestErr` -/

/-- The method `(*ChromeRequestErr).Error`; `none` stands for the panic of a nil
dereference, when `Resp` or `Resp.Error` is nil. -/
def ChromeRequestErr.Error (Resp : Option ChromeErrorResponse) : Option String :=
  match Resp with
  | none => none
  | some resp =>
    match resp.Error with
    | none => none
    | some e =>
      some ("request " ++ FormatInt resp.Id ++ " failed, code: " ++ FormatInt e.Code
        ++ " msg: " ++ e.Message)

/-- The base-10 rendering of a signed integer, in the words of the specification: the
decimal digits of the magnitude, most significant first (`0` for zero), after a leading
`-` for a negative value. -/
def decimal (i : Int) : String :=
  String.mk ((if i < 0 then ['-'] else [])
    ++ (if i = 0 then ['0'] else ((Nat.digits 10 i.natAbs).reverse.map Nat.digitChar)))

/-! ## Vocabulary for the comparison of the two primitives and for the channels -/

/-- The messages placed on the outbound channel in a trace, in order. -/
def sentMessages (tr : List Event) : List Message :=
  tr.filterMap (fun e =>
    match e with
    | Event.Send msg => some msg
    | _ => none)

/-- The replies taken from a reply channel in a trace, with the channel, in order. -/
def receivedReplies (tr : List Event) : List (Chan × Option Message) :=
  tr.filterMap (fun e =>
    match e with
    | Event.Recv ch msg => some (ch, msg)
    | _ => none)

/-- The channels made in a trace, in order. -/
def madeChans (tr : List Event) : List Chan :=
  tr.filterMap (fun e =>
    match e with
    | Event.MakeChan ch => some ch
    | _ => none)

/-- A notification with the text of an `errors.New` error blanked. -/
def Event.blankErrText : Event → Event
  | Event.ObserveRequest id method data (some (GoError.New _)) =>
    Event.ObserveRequest id method data (some (GoError.New ""))
  | Event.ObserveResponse id method data (some (GoError.New _)) =>
    Event.ObserveResponse id method data (some (GoError.New ""))
  | e => e

/-- What C15 asks of the trace of a call: at most one send and at most one receive; the
message sent carries the Id of the request, the serialized request and the one channel the
call has made before, of capacity one; a receive takes from that channel; and there is no
receive without a send before it. -/
def ChannelDiscipline (env : Env) (paramRequest : ParamRequest) (tr : List Event) : Prop :=
  (sentMessages tr).length ≤ 1 ∧
  (receivedReplies tr).length ≤ 1 ∧
  (∀ msg ∈ sentMessages tr,
    madeChans tr = [Chan.mk env.newChan 1] ∧
    msg.ReplyCh = some (Chan.mk env.newChan 1) ∧
    msg.Id = paramRequest.Id ∧
    ∃ data, jsonMarshal paramRequest.fields = Except.ok data ∧ msg.Data = some data ∧
      ∃ rest, tr = Event.MakeChan (Chan.mk env.newChan 1) :: Event.Send msg :: rest) ∧
  (∀ r ∈ receivedReplies tr,
    r = (Chan.mk env.newChan 1, env.reply) ∧ (sentMessages tr).length = 1)

/-! ## `gcdapi`: `DOMDebugger.GetEventListenersWithParams` -/

/-- Parameters of `DOMDebugger.getEventListeners`. -/
structure DOMDebuggerGetEventListenersParams where
  ObjectId : String
  Depth : Int
  Pierce : Bool
deriving DecidableEq, Repr

/-- Fields of `DOMDebuggerGetEventListenersParams`: `json:"objectId"`,
`json:"depth,omitempty"`, `json:"pierce,omitempty"`. -/
def DOMDebuggerGetEventListenersParams.fields (p : DOMDebuggerGetEventListenersParams) :
    List Field :=
  [⟨"objectId", false, FieldValue.string p.ObjectId⟩,
   ⟨"depth", true, FieldValue.int64 p.Depth⟩,
   ⟨"pierce", true, FieldValue.bool p.Pierce⟩]

/-- The value `v` of type `*DOMDebuggerGetEventListenersParams` held by `Params`: the
interface is not nil even when the pointer is, and a nil pointer encodes to `null`. -/
def paramsOfEventListenersParams (v : Option DOMDebuggerGetEventListenersParams) :
    ParamsValue :=
  match v with
  | none => ParamsValue.encodes "null"
  | some p =>
    match jsonMarshal p.fields with
    | Except.ok text => ParamsValue.encodes text
    | Except.error err => ParamsValue.fails err

/-- Object event listener. `R` stands for `RuntimeRemoteObject`, whose declaration is not
among the sources; `EventType` is the field `Type`. -/
structure DOMDebuggerEventListener (R : Type) where
  EventType : String
  UseCapture : Bool
  Passive : Bool
  Once : Bool
  ScriptId : String
  LineNumber : Int
  ColumnNumber : Int
  Handler : Option R
  OriginalHandler : Option R
  BackendNodeId : Int

/-- The zero value of `DOMDebuggerEventListener`. -/
def DOMDebuggerEventListener.zero (R : Type) : DOMDebuggerEventListener R :=
  { EventType := "", UseCapture := false, Passive := false, Once := false, ScriptId := "",
    LineNumber := 0, ColumnNumber := 0, Handler := none, OriginalHandler := none,
    BackendNodeId := 0 }

/-- Decoding a value into a `string` field holding `old`: `null` leaves it as it is. -/
def decodeString (v : Json) (old : String) : Option String :=
  match v with
  | Json.null => some old
  | Json.str s => some s
  | _ => none

/-- Decoding a value into a `bool` field holding `old`: `null` leaves it as it is. -/
def decodeBool (v : Json) (old : Bool) : Option Bool :=
  match v with
  | Json.null => some old
  | Json.bool b => some b
  | _ => none

/-- Decoding a value into a field of type `*RuntimeRemoteObject` holding `old`: `null`
makes the pointer nil, another value is decoded by `decodeRemoteObject` into the object
pointed to (a new one when the pointer is nil). -/
def decodeRemoteObjectPtr {R : Type} (decodeRemoteObject : Option R → Json → Option R)
    (v : Json) (old : Option R) : Option (Option R) :=
  match v with
  | Json.null => some none
  | _ =>
    match decodeRemoteObject old v with
    | some r => some (some r)
    | none => none

/-- Members of a listener object, taken in document order, each going to the field with the
matching `json` tag. -/
def decodeEventListenerFields {R : Type} (decodeRemoteObject : Option R → Json → Option R) :
    List (String × Json) → DOMDebuggerEventListener R → Option (DOMDebuggerEventListener R)
  | [], l => some l
  | (k, v) :: rest, l =>
    if fieldMatch k "type" then
      match decodeString v l.EventType with
      | some s => decodeEventListenerFields decodeRemoteObject rest { l with EventType := s }
      | none => none
    else if fieldMatch k "useCapture" then
      match decodeBool v l.UseCapture with
      | some b => decodeEventListenerFields decodeRemoteObject rest { l with UseCapture := b }
      | none => none
    else if fieldMatch k "passive" then
      match decodeBool v l.Passive with
      | some b => decodeEventListenerFields decodeRemoteObject rest { l with Passive := b }
      | none => none
    else if fieldMatch k "once" then
      match decodeBool v l.Once with
      | some b => decodeEventListenerFields decodeRemoteObject rest { l with Once := b }
      | none => none
    else if fieldMatch k "scriptId" then
      match decodeString v l.ScriptId with
      | some s => decodeEventListenerFields decodeRemoteObject rest { l with ScriptId := s }
      | none => none
    else if fieldMatch k "lineNumber" then
      match decodeInt64 v l.LineNumber with
      | some i => decodeEventListenerFields decodeRemoteObject rest { l with LineNumber := i }
      | none => none
    else if fieldMatch k "columnNumber" then
      match decodeInt64 v l.ColumnNumber with
      | some i => decodeEventListenerFields decodeRemoteObject rest { l with ColumnNumber := i }
      | none => none
    else if fieldMatch k "handler" then
      match decodeRemoteObjectPtr decodeRemoteObject v l.Handler with
      | some h => decodeEventListenerFields decodeRemoteObject rest { l with Handler := h }
      | none => none
    else if fieldMatch k "originalHandler" then
      match decodeRemoteObjectPtr decodeRemoteObject v l.OriginalHandler with
      | some h =>
        decodeEventListenerFields decodeRemoteObject rest { l with OriginalHandler := h }
      | none => none
    else if fieldMatch k "backendNodeId" then
      match decodeInt64 v l.BackendNodeId with
      | some i =>
        decodeEventListenerFields decodeRemoteObject rest { l with BackendNodeId := i }
      | none => none
    else decodeEventListenerFields decodeRemoteObject rest l

/-- Decoding a value into a new element of type `*DOMDebuggerEventListener`: `null` gives
the nil pointer, an object a new listener. -/
def decodeEventListener {R : Type} (decodeRemoteObject : Option R → Json → Option R)
    (v : Json) : Option (Option (DOMDebuggerEventListener R)) :=
  match v with
  | Json.null => some none
  | Json.obj kvs =>
    match decodeEventListenerFields decodeRemoteObject kvs (DOMDebuggerEventListener.zero R) with
    | some l => some (some l)
    | none => none
  | _ => none

/-- Decoding the elements of an array, each into a new element. -/
def decodeEventListenerElements {R : Type}
    (decodeRemoteObject : Option R → Json → Option R) :
    List Json → Option (List (Option (DOMDebuggerEventListener R)))
  | [] => some []
  | x :: xs =>
    match decodeEventListener decodeRemoteObject x,
      decodeEventListenerElements decodeRemoteObject xs with
    | some l, some ls => some (l :: ls)
    | _, _ => none

/-- Decoding a value into the field `Listeners []*DOMDebuggerEventListener`: `null` gives
the nil slice (`none`), an array a slice of its decoded elements. -/
def decodeEventListeners {R : Type} (decodeRemoteObject : Option R → Json → Option R)
    (v : Json) : Option (Option (List (Option (DOMDebuggerEventListener R)))) :=
  match v with
  | Json.null => some none
  | Json.arr xs =>
    match decodeEventListenerElements decodeRemoteObject xs with
    | some ls => some (some ls)
    | none => none
  | _ => none

/-- The variable `chromeData` of `GetEventListenersWithParams`: the embedded
`ChromeErrorResponse` and the field `Result struct { Listeners []*DOMDebuggerEventListener }`,
the nil slice being `none`. -/
structure GetEventListenersData (R : Type) where
  toChromeErrorResponse : ChromeErrorResponse
  Listeners : Option (List (Option (DOMDebuggerEventListener R)))

/-- Members of the object for the field `Result`: the member `Listeners` (no tag, so the
name of the field) is decoded, any other is skipped. -/
def decodeResultFields {R : Type} (decodeRemoteObject : Option R → Json → Option R) :
    List (String × Json) → Option (List (Option (DOMDebuggerEventListener R))) →
      Option (Option (List (Option (DOMDebuggerEventListener R))))
  | [], ls => some ls
  | (k, v) :: rest, ls =>
    if fieldMatch k "Listeners" then
      match decodeEventListeners decodeRemoteObject v with
      | some ls1 => decodeResultFields decodeRemoteObject rest ls1
      | none => none
    else decodeResultFields decodeRemoteObject rest ls

/-- Members of an error object decoded into a `ChromeError`: `json:"code"` and
`json:"message"`. -/
def decodeChromeErrorFields : List (String × Json) → ChromeError → Option ChromeError
  | [], e => some e
  | (k, v) :: rest, e =>
    if fieldMatch k "code" then
      match decodeInt64 v e.Code with
      | some c => decodeChromeErrorFields rest { e with Code := c }
      | none => none
    else if fieldMatch k "message" then
      match decodeString v e.Message with
      | some m => decodeChromeErrorFields rest { e with Message := m }
      | none => none
    else decodeChromeErrorFields rest e

/-- Decoding a value into the field `Error *ChromeError` holding `old`: `null` makes the
pointer nil, an object is decoded into the error pointed to (a new one when the pointer is
nil). -/
def decodeChromeErrorPtr (v : Json) (old : Option ChromeError) : Option (Option ChromeError) :=
  match v with
  | Json.null => some none
  | Json.obj kvs =>
    match decodeChromeErrorFields kvs (old.getD { Code := 0, Message := "" }) with
    | some e => some (some e)
    | none => none
  | _ => none

/-- Members of the reply decoded into `chromeData`: `json:"id"` and `json:"error"` go to the
embedded `ChromeErrorResponse`, the member `Result` to the field of that name, whose value
is an object or `null`. -/
def decodeEventListenersDataFields {R : Type}
    (decodeRemoteObject : Option R → Json → Option R) :
    List (String × Json) → GetEventListenersData R → Option (GetEventListenersData R)
  | [], d => some d
  | (k, v) :: rest, d =>
    if fieldMatch k "id" then
      match decodeInt64 v d.toChromeErrorResponse.Id with
      | some i =>
        decodeEventListenersDataFields decodeRemoteObject rest
          { d with toChromeErrorResponse := { d.toChromeErrorResponse with Id := i } }
      | none => none
    else if fieldMatch k "error" then
      match decodeChromeErrorPtr v d.toChromeErrorResponse.Error with
      | some e =>
        decodeEventListenersDataFields decodeRemoteObject rest
          { d with toChromeErrorResponse := { d.toChromeErrorResponse with Error := e } }
      | none => none
    else if fieldMatch k "Result" then
      match v with
      | Json.null => decodeEventListenersDataFields decodeRemoteObject rest d
      | Json.obj members =>
        match decodeResultFields decodeRemoteObject members d.Listeners with
        | some ls =>
          decodeEventListenersDataFields decodeRemoteObject rest { d with Listeners := ls }
        | none => none
      | _ => none
    else decodeEventListenersDataFields decodeRemoteObject rest d

/-- Modelled from the spec: `jsonUnmarshal`, a variable of package `gcdapi` that is not
among the sources, taken to be the decoder of the Envelope Codec (`json.Unmarshal`), here
applied to `resp.Data` and `&chromeData`; a nil `Data` is the empty input. -/
def jsonUnmarshalEventListenersData {R : Type}
    (decodeRemoteObject : Option R → Json → Option R) (data : Option String) :
    Except GoError (GetEventListenersData R) :=
  match parseJson (data.getD "") with
  | none => Except.error GoError.JsonUnmarshal
  | some Json.null => Except.ok { toChromeErrorResponse := ⟨0, none⟩, Listeners := none }
  | some (Json.obj kvs) =>
    match decodeEventListenersDataFields decodeRemoteObject kvs
        { toChromeErrorResponse := ⟨0, none⟩, Listeners := none } with
    | some d => Except.ok d
    | none => Except.error GoError.JsonUnmarshal
  | some _ => Except.error GoError.JsonUnmarshal

/-- Modelled from the spec: the method `SendCustomReturn` of the target, which is not
among the sources; a wrapper that needs a typed result "calls 4.1 directly", that is the
primitive of `gcdmessage` with the target, its send channel and the request. -/
def Target.SendCustomReturn (env : Env) (paramRequest : ParamRequest) : Returned Message :=
  Gcd.SendCustomReturn env paramRequest

/-- GetEventListenersWithParams - Returns event listeners of the given object. `nextId` is
what `c.target.GetId()` returns. -/
def GetEventListenersWithParams {R : Type} (decodeRemoteObject : Option R → Json → Option R)
    (env : Env) (nextId : Int) (v : Option DOMDebuggerGetEventListenersParams) :
    Returned (List (Option (DOMDebuggerEventListener R))) :=
  let call := Target.SendCustomReturn env
    { Id := nextId, Method := "DOMDebugger.getEventListeners",
      Params := paramsOfEventListenersParams v }
  match call.err with
  | some err => ⟨none, some err, call.trace⟩
  | none =>
    match call.value with
    | none => ⟨none, some GoError.ChromeEmptyResponseErr, call.trace⟩
    | some resp =>
      match jsonUnmarshalEventListenersData decodeRemoteObject resp.Data with
      | Except.error err =>
        ⟨none, some err, call.trace ++ [Event.Unmarshal (resp.Data.getD "")]⟩
      | Except.ok chromeData =>
        match chromeData.toChromeErrorResponse.Error with
        | some _ =>
          ⟨none, some (GoError.ChromeRequestErr (some chromeData.toChromeErrorResponse)),
            call.trace ++ [Event.Unmarshal (resp.Data.getD "")]⟩
        | none =>
          ⟨chromeData.Listeners, none, call.trace ++ [Event.Unmarshal (resp.Data.getD "")]⟩

/-- The request that `GetEventListenersWithParams` sends. -/
def eventListenersRequest (nextId : Int) (v : Option DOMDebuggerGetEventListenersParams) :
    ParamRequest :=
  { Id := nextId, Method := "DOMDebugger.getEventListeners",
    Params := paramsOfEventListenersParams v }

/-- The parameters of a call for the listeners of the object `obj-1`. -/
def listenersParams : Option DOMDebuggerGetEventListenersParams :=
  some { ObjectId := "obj-1", Depth := 0, Pierce := false }

/-- The reply text
`{"id":7,"result":{"listeners":[{"type":"click","useCapture":true,"lineNumber":12}]}}`. -/
def listenersReply : String :=
  "\x7b\"id\":7,\"result\":\x7b\"listeners\":[\x7b\"type\":\"click\",\"useCapture\":true,\"lineNumber\":12\x7d]\x7d\x7d"

/-- A decoder for `RuntimeRemoteObject` that keeps the generic value. -/
def genericRemoteObject (_old : Option GoValue) (v : Json) : Option GoValue :=
  decodeAny v

/-! ## float64: the conversion from a literal and the shortest formatting -/

def bitLengthAux : Nat → Nat → Nat
  | 0, _ => 0
  | fuel + 1, n => if n = 0 then 0 else bitLengthAux fuel (n / 2) + 1

/-- Number of binary digits of `n` (0 for 0). -/
def bitLength (n : Nat) : Nat := bitLengthAux n n

def decLengthAux : Nat → Nat → Nat
  | 0, _ => 0
  | fuel + 1, n => if n = 0 then 0 else decLengthAux fuel (n / 10) + 1

/-- Number of decimal digits of `n` (0 for 0). -/
def decLength (n : Nat) : Nat := decLengthAux n n

/-- Whether `b ^ e ≤ num / den`, for an integer exponent `e`. -/
def powLe (b : Nat) (e : Int) (num den : Nat) : Bool :=
  if 0 ≤ e then decide (den * b ^ e.toNat ≤ num) else decide (den ≤ num * b ^ (-e).toNat)

/-- The quotient `num / den` scaled by `b ^ (-e)`, as a fraction. -/
def scaleDown (b : Nat) (e : Int) (num den : Nat) : Nat × Nat :=
  if 0 ≤ e then (num, den * b ^ e.toNat) else (num * b ^ (-e).toNat, den)

/-- The magnitude of a finite float64: `mant * 2 ^ exp2`, with `mant < 2 ^ 53` and
`exp2 ≥ -1074`, and `2 ^ 52 ≤ mant` unless `exp2 = -1074`. -/
structure Float64 where
  mant : Nat
  exp2 : Int
deriving DecidableEq, Repr

/-- The float64 nearest to the fraction `num / den`, ties going to the even mantissa; the
range is not checked here. -/
def nearestFloat64 (num den : Nat) : Float64 :=
  if num = 0 then { mant := 0, exp2 := -1074 }
  else
    let e0 : Int := (bitLength num : Int) - (bitLength den : Int)
    let e : Int := if powLe 2 e0 num den then e0 else e0 - 1
    let q : Int := max e (-1022) - 52
    let nd := scaleDown 2 q num den
    let m := nd.1 / nd.2
    let r := nd.1 % nd.2
    let m1 := if nd.2 < 2 * r ∨ (2 * r = nd.2 ∧ m % 2 = 1) then m + 1 else m
    if m1 = 9007199254740992 then { mant := 4503599627370496, exp2 := q + 1 }
    else { mant := m1, exp2 := q }

/-- The fraction that a literal denotes: numerator and denominator. -/
def JNumber.fraction (n : JNumber) : Nat × Nat :=
  let m : Nat := n.whole * 10 ^ n.frac.length + n.frac.foldl (fun a d => a * 10 + d) 0
  let e : Int := n.exp.getD 0 - (n.frac.length : Int)
  if 0 ≤ e then (m * 10 ^ e.toNat, 1) else (m, 10 ^ (-e).toNat)

/-- The fraction that a float64 is. -/
def Float64.fraction (f : Float64) : Nat × Nat :=
  if 0 ≤ f.exp2 then (f.mant * 2 ^ f.exp2.toNat, 1) else (f.mant, 2 ^ (-f.exp2).toNat)

/-- Whether the decimal `c * 10 ^ s` converts to the float64 `f`. -/
def convertsTo (f : Float64) (c : Nat) (s : Int) : Bool :=
  if 0 ≤ s then decide (nearestFloat64 (c * 10 ^ s.toNat) 1 = f)
  else decide (nearestFloat64 c (10 ^ (-s).toNat) = f)

/-- The shortest decimal `c * 10 ^ s` that converts to `f`, tried with `k` significant
digits, then `k + 1`, and so on; `p` is the decimal exponent of the first digit of `f`. Of
the two decimals of `k` digits around `f` the one that converts to `f` is taken, the
nearer one when both do. Seventeen digits always tell a float64 from its neighbours, so the
search started at one digit with fuel 17 ends before the fuel does. -/
def shortestFrom (f : Float64) (p : Int) : Nat → Nat → Nat × Int
  | 0, k =>
    let s : Int := p - (k : Int) + 1
    let nd := scaleDown 10 s f.fraction.1 f.fraction.2
    (nd.1 / nd.2, s)
  | fuel + 1, k =>
    let s : Int := p - (k : Int) + 1
    let nd := scaleDown 10 s f.fraction.1 f.fraction.2
    let lo := nd.1 / nd.2
    let r := nd.1 % nd.2
    let okLo := convertsTo f lo s
    let okHi := convertsTo f (lo + 1) s
    if r = 0 then (lo, s)
    else if okLo && okHi then
      (if 2 * r < nd.2 ∨ (2 * r = nd.2 ∧ lo % 2 = 0) then (lo, s) else (lo + 1, s))
    else if okLo then (lo, s)
    else if okHi then (lo + 1, s)
    else shortestFrom f p fuel (k + 1)

/-- The shortest decimal that converts to the float64 `f`: the number that
`strconv.AppendFloat(b, f, fmt, -1, 64)` writes. -/
def shortestDecimal (f : Float64) : Nat × Int :=
  if f.mant = 0 then (0, 0)
  else
    let p0 : Int := (decLength f.fraction.1 : Int) - (decLength f.fraction.2 : Int)
    let p : Int := if powLe 10 p0 f.fraction.1 f.fraction.2 then p0 else p0 - 1
    shortestFrom f p 17 1

/-- The number written for the float64 that the literal `n` was converted to. -/
def encodeFloat64 (n : JNumber) : JNumber :=
  let d := shortestDecimal (nearestFloat64 n.fraction.1 n.fraction.2)
  { neg := n.neg, whole := d.1, frac := [], exp := some d.2 }

/-- Two literals denote the same number. -/
def JNumber.sameNumber (a b : JNumber) : Prop :=
  (if a.neg then -(a.fraction.1 : Int) else (a.fraction.1 : Int)) * (b.fraction.2 : Int)
    = (if b.neg then -(b.fraction.1 : Int) else (b.fraction.1 : Int)) * (a.fraction.2 : Int)

instance (a b : JNumber) : Decidable (a.sameNumber b) := by
  unfold JNumber.sameNumber; infer_instance

/-! ## `json.Marshal` of a `ChromeResponse`, as a JSON value -/

/-- Lexicographic order of two strings by the code points of their characters, which is
the order of their UTF-8 bytes. -/
def charsLe : List Char → List Char → Bool
  | [], _ => true
  | _ :: _, [] => false
  | a :: as, b :: bs => if a.toNat < b.toNat then true else if b.toNat < a.toNat then false
    else charsLe as bs

/-- The order in which the encoder writes the entries of a map: by key. -/
def keyLe (a b : String × Json) : Prop := charsLe a.1.toList b.1.toList = true

instance : DecidableRel keyLe := fun a b => by unfold keyLe; infer_instance

mutual
/-- The JSON value that the encoder writes for the content of an `interface{}`. The entries
of a map are written sorted by key. -/
def encodeAny : GoValue → Json
  | GoValue.nil => Json.null
  | GoValue.bool b => Json.bool b
  | GoValue.float64 n => Json.num (encodeFloat64 n)
  | GoValue.string s => Json.str s
  | GoValue.slice xs => Json.arr (encodeElements xs)
  | GoValue.map kvs => Json.obj (List.insertionSort keyLe (encodeEntries kvs))
def encodeElements : List GoValue → List Json
  | [] => []
  | x :: xs => encodeAny x :: encodeElements xs
def encodeEntries : List (String × GoValue) → List (String × Json)
  | [] => []
  | (k, v) :: rest => (k, encodeAny v) :: encodeEntries rest
end

/-- The JSON value of `json.Marshal(chromeResponse)`: the fields `json:"id"` and
`json:"result"`, neither with `omitempty`. -/
def ChromeResponse.toJson (r : ChromeResponse) : Json :=
  Json.obj [("id", Json.num (JNumber.ofInt r.Id)), ("result", encodeAny r.Result)]

mutual
/-- Equality as JSON values: numbers by the number they denote, the members of an object
in any order. -/
inductive SameValue : Json → Json → Prop
  | null : SameValue Json.null Json.null
  | bool (b : Bool) : SameValue (Json.bool b) (Json.bool b)
  | num (a b : JNumber) : a.sameNumber b → SameValue (Json.num a) (Json.num b)
  | str (s : String) : SameValue (Json.str s) (Json.str s)
  | arr (xs ys : List Json) : SameElements xs ys → SameValue (Json.arr xs) (Json.arr ys)
  | obj (l l1 r : List (String × Json)) :
    List.Perm l l1 → SameMembers l1 r → SameValue (Json.obj l) (Json.obj r)
inductive SameElements : List Json → List Json → Prop
  | nil : SameElements [] []
  | cons (x y : Json) (xs ys : List Json) :
    SameValue x y → SameElements xs ys → SameElements (x :: xs) (y :: ys)
inductive SameMembers : List (String × Json) → List (String × Json) → Prop
  | nil : SameMembers [] []
  | cons (k : String) (x y : Json) (l r : List (String × Json)) :
    SameValue x y → SameMembers l r → SameMembers ((k, x) :: l) ((k, y) :: r)
end

mutual
/-- What makes a JSON value survive the decoding into an `interface{}` and the encoding
that follows: no object repeats a key, and every number is within the range of float64 and
is the number that the encoder writes for the float64 it converts to. -/
def Survives : Json → Prop
  | Json.null => True
  | Json.bool _ => True
  | Json.num n => n.inFloat64Range = true ∧ (encodeFloat64 n).sameNumber n
  | Json.str _ => True
  | Json.arr xs => SurviveElements xs
  | Json.obj kvs => SurviveMembers kvs ∧ (memberKeys kvs).Nodup
def SurviveElements : List Json → Prop
  | [] => True
  | x :: xs => Survives x ∧ SurviveElements xs
def SurviveMembers : List (String × Json) → Prop
  | [] => True
  | (_, v) :: rest => Survives v ∧ SurviveMembers rest
/-- The keys of the members of an object, in order. -/
def memberKeys : List (String × Json) → List String
  | [] => []
  | (k, _) :: rest => k :: memberKeys rest
end

mutual
/-- Every number of the value is within the range of float64. -/
def NumbersInRange : Json → Prop
  | Json.null => True
  | Json.bool _ => True
  | Json.num n => n.inFloat64Range = true
  | Json.str _ => True
  | Json.arr xs => ElementsInRange xs
  | Json.obj kvs => MembersInRange kvs
def ElementsInRange : List Json → Prop
  | [] => True
  | x :: xs => NumbersInRange x ∧ ElementsInRange xs
def MembersInRange : List (String × Json) → Prop
  | [] => True
  | (_, v) :: rest => NumbersInRange v ∧ MembersInRange rest
end

/-- The reply text `{"id":1,"result":1e400}`, whose result is beyond the range of float64. -/
def hugeNumberReply : String := "\x7b\"id\":1,\"result\":1e400\x7d"

/-- The reply text `{"id":9223372036854775808,"result":null}`, whose id is `2^63`. -/
def bigIdReply : String := "\x7b\"id\":9223372036854775808,\"result\":null\x7d"

/-- The reply text `{"id":1.0,"result":null}`, whose id is written with a fraction. -/
def fractionIdReply : String := "\x7b\"id\":1.0,\"result\":null\x7d"

/-- The reply text `{"result":{"x":1},"id":1}`. -/
def swappedReply : String := "\x7b\"result\":\x7b\"x\":1\x7d,\"id\":1\x7d"

/-- The reply text `{"id":1,"result":"\ud800"}`, whose result is written with the escape of
a high surrogate that has no low surrogate after it. -/
def loneSurrogateReply : String := "\x7b\"id\":1,\"result\":\"\\ud800\"\x7d"

/-- The reply text `{"id":1,"result":"\ud83d\ud83d\ude00"}`, whose result is written
with the escape of a high surrogate followed by the escapes of a pair. -/
def brokenSurrogatesReply : String :=
  "\x7b\"id\":1,\"result\":\"\\ud83d\\ud83d\\ude00\"\x7d"

/-- The reply text `{"id":1,"result":"\ufffd"}`, whose result is the character U+FFFD. -/
def replacementReply : String := "\x7b\"id\":1,\"result\":\"\\ufffd\"\x7d"

/-- The reply text `{"id":1,"result":"\ud83d\ude00"}`, whose result is the character
U+1F600 written as a pair of escaped surrogates. -/
def pairedSurrogateReply : String :=
  "\x7b\"id\":1,\"result\":\"\\ud83d\\ude00\"\x7d"

/-- The reply text `{"id":1,"result":[[...]]}` whose result is `n` arrays, one inside the
other, the innermost empty. -/
def nestedArraysReply (n : Nat) : String :=
  String.mk ('{' :: dquote :: 'i' :: 'd' :: dquote :: ':' :: '1' :: ',' :: dquote :: 'r' :: 'e' ::
    's' :: 'u' :: 'l' :: 't' :: dquote :: ':' ::
    (List.replicate n '[' ++ (List.replicate n ']' ++ ['}'])))

/-- The reply text `{"id":1,"result":9007199254740993}`, whose result is `2^53 + 1`. -/
def bigNumberReply : String := "\x7b\"id\":1,\"result\":9007199254740993\x7d"

/-- The reply text `{"id":1,"result":{"a":1,"a":2}}`. -/
def repeatedKeyReply : String :=
  "\x7b\"id\":1,\"result\":\x7b\"a\":1,\"a\":2\x7d\x7d"

/-- The reply text `{"id":1,"result":{"b":[0.5,"x",null],"a":{"n":-32000}}}`. -/
def nestedReply : String :=
  "\x7b\"id\":1,\"result\":\x7b\"b\":[0.5,\"x\",null],\"a\":\x7b\"n\":-32000\x7d\x7d\x7d"

/-! ## The fuel of the parser is never used up -/

theorem skipWs_length (cs : List Char) : (skipWs cs).length ≤ cs.length := by
  induction cs with
  | nil => simp [skipWs]
  | cons c cs ih =>
    unfold skipWs
    split
    · exact Nat.le_succ_of_le ih
    · exact Nat.le_refl _

theorem skipWs_cons_length {cs : List Char} {c : Char} {rest : List Char}
    (h : skipWs cs = c :: rest) : rest.length + 1 ≤ cs.length := by
  have := skipWs_length cs
  rw [h] at this
  simpa using this

theorem takeDigits_length (cs : List Char) : (takeDigits cs).2.length ≤ cs.length := by
  induction cs with
  | nil => simp [takeDigits]
  | cons c cs ih =>
    unfold takeDigits
    split
    · exact Nat.le_succ_of_le ih
    · exact Nat.le_refl _

theorem takeMinus_length (cs : List Char) : (takeMinus cs).2.length ≤ cs.length := by
  unfold takeMinus
  split
  · simp
  · split <;> simp

theorem takeSign_length (cs : List Char) : (takeSign cs).2.length ≤ cs.length := by
  unfold takeSign
  split
  · simp
  · split
    · simp
    · split <;> simp

theorem parseIntPart_length {cs : List Char} {w : Nat} {rest : List Char}
    (h : parseIntPart cs = some (w, rest)) : rest.length ≤ cs.length := by
  unfold parseIntPart at h
  split at h
  · simp at h
  · rename_i c tl
    split at h
    · simp only [Option.some.injEq, Prod.mk.injEq] at h
      rw [← h.2]; simp
    · split at h
      · simp at h
      · simp only [Option.some.injEq, Prod.mk.injEq] at h
        rw [← h.2]; exact takeDigits_length _

theorem parseFrac_length {cs : List Char} {fs : List Nat} {rest : List Char}
    (h : parseFrac cs = some (fs, rest)) : rest.length ≤ cs.length := by
  unfold parseFrac at h
  split at h
  · simp only [Option.some.injEq, Prod.mk.injEq] at h
    rw [← h.2]
  · rename_i c tl
    split at h
    · split at h
      · simp at h
      · simp only [Option.some.injEq] at h
        have := takeDigits_length tl
        rw [h] at this
        exact Nat.le_succ_of_le this
    · simp only [Option.some.injEq, Prod.mk.injEq] at h
      rw [← h.2]

theorem parseExp_length {cs : List Char} {e : Option Int} {rest : List Char}
    (h : parseExp cs = some (e, rest)) : rest.length ≤ cs.length := by
  unfold parseExp at h
  split at h
  · simp only [Option.some.injEq, Prod.mk.injEq] at h
    rw [← h.2]
  · rename_i c tl
    split at h
    · split at h
      · simp at h
      · simp only [Option.some.injEq, Prod.mk.injEq] at h
        rw [← h.2]
        have l1 := takeDigits_length (takeSign tl).2
        have l2 := takeSign_length tl
        simp only [List.length_cons]
        omega
    · simp only [Option.some.injEq, Prod.mk.injEq] at h
      rw [← h.2]

theorem parseNumber_length {cs : List Char} {n : JNumber} {rest : List Char}
    (h : parseNumber cs = some (n, rest)) : rest.length ≤ cs.length := by
  unfold parseNumber at h
  split at h
  · simp at h
  · rename_i w cs1 h1
    split at h
    · simp at h
    · rename_i fs cs2 h2
      split at h
      · simp at h
      · rename_i e cs3 h3
        simp only [Option.some.injEq, Prod.mk.injEq] at h
        rw [← h.2]
        have l1 := parseIntPart_length h1
        have l2 := parseFrac_length h2
        have l3 := parseExp_length h3
        have l0 := takeMinus_length cs
        omega

theorem parseHex4_length {cs : List Char} {n : Nat} {rest : List Char}
    (h : parseHex4 cs = some (n, rest)) : rest.length ≤ cs.length := by
  unfold parseHex4 at h
  split at h
  · split at h
    · simp only [Option.some.injEq, Prod.mk.injEq] at h
      rw [← h.2]
      simp only [List.length_cons]
      omega
    · simp at h
  · simp at h

theorem unescapeUnit_shrinks : Shrinks unescapeUnit := by
  intro n rest cs rest1 h
  unfold unescapeUnit at h
  split at h
  · split at h
    · simp at h
    · rename_i b more
      split at h
      · split at h
        · simp at h
        · rename_i e more1
          split at h
          · split at h
            · rename_i m rest2 hm
              have l := parseHex4_length hm
              split at h
              · simp only [Option.some.injEq, Prod.mk.injEq] at h
                rw [← h.2]; simp only [List.length_cons]; omega
              · simp only [Option.some.injEq, Prod.mk.injEq] at h
                rw [← h.2]; simp only [List.length_cons]; omega
            · simp at h
          · split at h
            · simp only [Option.some.injEq, Prod.mk.injEq] at h
              rw [← h.2]; simp only [List.length_cons]; omega
            · simp at h
      · simp only [Option.some.injEq, Prod.mk.injEq] at h
        rw [← h.2]
  · simp only [Option.some.injEq, Prod.mk.injEq] at h
    rw [← h.2]

theorem unescapePaired_shrinks : Shrinks unescapePaired := by
  intro n rest cs rest1 h
  unfold unescapePaired at h
  split at h
  · split at h
    · split at h
      · rename_i b e more1
        split at h
        · split at h
          · rename_i m rest2 hm
            have l := parseHex4_length hm
            split at h
            · simp only [Option.some.injEq, Prod.mk.injEq] at h
              rw [← h.2]; simp only [List.length_cons]; omega
            · simp at h
          · simp at h
        · simp at h
      · simp at h
    · simp at h
  · simp only [Option.some.injEq, Prod.mk.injEq] at h
    rw [← h.2]

theorem parseString_length (unesc : Nat → List Char → Option (List Char × List Char))
    (hu : Shrinks unesc) (fuel : Nat) :
    ∀ (cs acc : List Char) (s : String) (rest : List Char),
      parseString unesc fuel cs acc = some (s, rest) → rest.length + 1 ≤ cs.length := by
  induction fuel with
  | zero =>
    intro cs acc s rest h
    unfold parseString at h
    exact absurd h (by simp)
  | succ f ih =>
    intro cs acc s rest h
    cases cs with
    | nil =>
      unfold parseString at h
      exact absurd h (by simp)
    | cons c tl =>
      unfold parseString at h
      split at h
      · simp only [Option.some.injEq, Prod.mk.injEq] at h
        rw [← h.2]; simp
      · split at h
        · split at h
          · simp at h
          · rename_i e rest1
            split at h
            · split at h
              · rename_i n rest2 hx
                split at h
                · rename_i chars rest3 hn
                  have l1 := ih _ _ s rest h
                  have l2 := hu n rest2 chars rest3 hn
                  have l3 := parseHex4_length hx
                  simp only [List.length_cons]
                  omega
                · simp at h
              · simp at h
            · split at h
              · have := ih rest1 _ s rest h
                simp only [List.length_cons]
                omega
              · simp at h
        · split at h
          · simp at h
          · have := ih tl _ s rest h
            simp only [List.length_cons]
            omega

theorem parseString_fuel (unesc : Nat → List Char → Option (List Char × List Char))
    (hu : Shrinks unesc) (fuel : Nat) :
    ∀ (cs acc : List Char), cs.length ≤ fuel →
      parseString unesc (fuel + 1) cs acc = parseString unesc fuel cs acc := by
  induction fuel with
  | zero =>
    intro cs acc h
    have : cs = [] := List.length_eq_zero.mp (Nat.le_zero.mp h)
    subst this
    unfold parseString
    rfl
  | succ f ih =>
    intro cs acc h
    cases cs with
    | nil =>
      unfold parseString
      rfl
    | cons c tl =>
      have htl : tl.length ≤ f := by simpa using h
      unfold parseString
      cases tl with
      | nil => simp only [ih [] _ (Nat.zero_le f)]
      | cons e rest1 =>
        have hr : rest1.length ≤ f := by
          simp only [List.length_cons] at htl; omega
        simp only [ih rest1 _ hr, ih (e :: rest1) _ htl]
        cases hx : parseHex4 rest1 with
        | none => rfl
        | some p =>
          obtain ⟨n, rest2⟩ := p
          dsimp only
          cases hn : unesc n rest2 with
          | none => rfl
          | some q =>
            obtain ⟨chars, rest3⟩ := q
            have hq : parseString unesc (f + 1) rest3 (chars.reverse ++ acc)
                = parseString unesc f rest3 (chars.reverse ++ acc) := by
              apply ih
              have l2 := hu n rest2 chars rest3 hn
              have l3 := parseHex4_length hx
              omega
            simp only [hq]

theorem parseLiteral_length {c : Char} {cs : List Char} {v : Json} {rest : List Char}
    (h : parseLiteral c cs = some (v, rest)) : rest.length ≤ cs.length + 1 := by
  unfold parseLiteral at h
  split at h
  · split at h
    · simp only [Option.some.injEq, Prod.mk.injEq] at h
      rw [← h.2]; simp only [List.length_cons]; omega
    · simp at h
  · split at h
    · split at h
      · simp only [Option.some.injEq, Prod.mk.injEq] at h
        rw [← h.2]; simp only [List.length_cons]; omega
      · simp at h
    · split at h
      · split at h
        · simp only [Option.some.injEq, Prod.mk.injEq] at h
          rw [← h.2]; simp only [List.length_cons]; omega
        · simp at h
      · split at h
        · rename_i n rest1 hn
          simp only [Option.some.injEq, Prod.mk.injEq] at h
          rw [← h.2]
          simpa using parseNumber_length hn
        · simp at h

/-- What is left after a value, the members of an object or the elements of an array is no
longer than the input. -/
theorem parse_length (unesc : Nat → List Char → Option (List Char × List Char))
    (hu : Shrinks unesc) (fuel : Nat) :
    (∀ depth cs v rest, parseValue unesc fuel depth cs = some (v, rest) →
      rest.length ≤ cs.length) ∧
    (∀ depth cs kvs rest, parseMembers unesc fuel depth cs = some (kvs, rest) →
      rest.length ≤ cs.length) ∧
    (∀ depth cs xs rest, parseElements unesc fuel depth cs = some (xs, rest) →
      rest.length ≤ cs.length) := by
  induction fuel with
  | zero =>
    refine ⟨?_, ?_, ?_⟩ <;> intro depth cs v rest h
    · unfold parseValue at h; exact absurd h (by simp)
    · unfold parseMembers at h; exact absurd h (by simp)
    · unfold parseElements at h; exact absurd h (by simp)
  | succ f ih =>
    obtain ⟨ihV, ihM, ihE⟩ := ih
    refine ⟨?_, ?_, ?_⟩
    · intro depth cs v rest h
      unfold parseValue at h
      split at h
      · simp at h
      · rename_i c rest0 hc
        have l0 := skipWs_cons_length hc
        split at h
        · split at h
          · rename_i s rest1 hs
            simp only [Option.some.injEq, Prod.mk.injEq] at h
            have := parseString_length unesc hu _ _ _ _ _ hs
            rw [← h.2]; omega
          · simp at h
        · split at h
          · split at h
            · simp at h
            · split at h
              · simp at h
              · rename_i d rest1 hd
                have l1 := skipWs_cons_length hd
                split at h
                · simp only [Option.some.injEq, Prod.mk.injEq] at h
                  rw [← h.2]; omega
                · split at h
                  · rename_i kvs rest2 hm
                    simp only [Option.some.injEq, Prod.mk.injEq] at h
                    have := ihM _ _ _ _ hm
                    simp only [List.length_cons] at this
                    rw [← h.2]; omega
                  · simp at h
          · split at h
            · split at h
              · simp at h
              · split at h
                · simp at h
                · rename_i d rest1 hd
                  have l1 := skipWs_cons_length hd
                  split at h
                  · simp only [Option.some.injEq, Prod.mk.injEq] at h
                    rw [← h.2]; omega
                  · split at h
                    · rename_i xs rest2 hm
                      simp only [Option.some.injEq, Prod.mk.injEq] at h
                      have := ihE _ _ _ _ hm
                      simp only [List.length_cons] at this
                      rw [← h.2]; omega
                    · simp at h
            · have := parseLiteral_length h
              omega
    · intro depth cs kvs rest h
      unfold parseMembers at h
      split at h
      · simp at h
      · rename_i c rest0 hc
        have l0 := skipWs_cons_length hc
        split at h
        · split at h
          · simp at h
          · rename_i k rest1 hk
            have l1 := parseString_length unesc hu _ _ _ _ _ hk
            split at h
            · simp at h
            · rename_i d rest2 hd
              have l2 := skipWs_cons_length hd
              split at h
              · split at h
                · simp at h
                · rename_i v rest3 hv
                  have l3 := ihV _ _ _ _ hv
                  split at h
                  · simp at h
                  · rename_i e rest4 he
                    have l4 := skipWs_cons_length he
                    split at h
                    · split at h
                      · rename_i kvs1 rest5 hm
                        simp only [Option.some.injEq, Prod.mk.injEq] at h
                        have := ihM _ _ _ _ hm
                        rw [← h.2]; omega
                      · simp at h
                    · split at h
                      · simp only [Option.some.injEq, Prod.mk.injEq] at h
                        rw [← h.2]; omega
                      · simp at h
              · simp at h
        · simp at h
    · intro depth cs xs rest h
      unfold parseElements at h
      split at h
      · simp at h
      · rename_i v rest0 hv
        have l0 := ihV _ _ _ _ hv
        split at h
        · simp at h
        · rename_i e rest1 he
          have l1 := skipWs_cons_length he
          split at h
          · split at h
            · rename_i xs1 rest2 hm
              simp only [Option.some.injEq, Prod.mk.injEq] at h
              have := ihE _ _ _ _ hm
              rw [← h.2]; omega
            · simp at h
          · split at h
            · simp only [Option.some.injEq, Prod.mk.injEq] at h
              rw [← h.2]; omega
            · simp at h

/-- From the stated amount on, one more unit of fuel changes nothing. -/
theorem parse_fuel_succ (unesc : Nat → List Char → Option (List Char × List Char))
    (hu : Shrinks unesc) (fuel : Nat) :
    (∀ depth cs, 2 * cs.length + 1 ≤ fuel →
      parseValue unesc (fuel + 1) depth cs = parseValue unesc fuel depth cs) ∧
    (∀ depth cs, 2 * cs.length + 1 ≤ fuel →
      parseMembers unesc (fuel + 1) depth cs = parseMembers unesc fuel depth cs) ∧
    (∀ depth cs, 2 * cs.length + 2 ≤ fuel →
      parseElements unesc (fuel + 1) depth cs = parseElements unesc fuel depth cs) := by
  induction fuel with
  | zero =>
    refine ⟨?_, ?_, ?_⟩ <;> intro depth cs h <;> omega
  | succ f ih =>
    obtain ⟨ihV, ihM, ihE⟩ := ih
    refine ⟨?_, ?_, ?_⟩
    · intro depth cs hb
      unfold parseValue
      cases hc : skipWs cs with
      | nil => rfl
      | cons c rest =>
        have l0 := skipWs_cons_length hc
        dsimp only
        cases hd : skipWs rest with
        | nil => rfl
        | cons d rest1 =>
          have l1 := skipWs_cons_length hd
          have e1 : parseMembers unesc (f + 1) (depth + 1) (d :: rest1)
              = parseMembers unesc f (depth + 1) (d :: rest1) :=
            ihM _ _ (by simp only [List.length_cons]; omega)
          have e2 : parseElements unesc (f + 1) (depth + 1) (d :: rest1)
              = parseElements unesc f (depth + 1) (d :: rest1) :=
            ihE _ _ (by simp only [List.length_cons]; omega)
          simp only [e1, e2]
    · intro depth cs hb
      unfold parseMembers
      cases hc : skipWs cs with
      | nil => rfl
      | cons c rest =>
        have l0 := skipWs_cons_length hc
        dsimp only
        cases hk : parseString unesc rest.length rest [] with
        | none => rfl
        | some p =>
          obtain ⟨k, rest1⟩ := p
          have l1 := parseString_length unesc hu _ _ _ _ _ hk
          dsimp only
          cases hd : skipWs rest1 with
          | nil => rfl
          | cons d rest2 =>
            have l2 := skipWs_cons_length hd
            have eV : parseValue unesc (f + 1) depth rest2 = parseValue unesc f depth rest2 :=
              ihV _ _ (by omega)
            simp only [eV]
            cases hv : parseValue unesc f depth rest2 with
            | none => rfl
            | some q =>
              obtain ⟨v, rest3⟩ := q
              have l3 := (parse_length unesc hu f).1 _ _ _ _ hv
              dsimp only
              cases he : skipWs rest3 with
              | nil => rfl
              | cons e rest4 =>
                have l4 := skipWs_cons_length he
                have eM : parseMembers unesc (f + 1) depth rest4 = parseMembers unesc f depth rest4 :=
                  ihM _ _ (by omega)
                simp only [eM]
    · intro depth cs hb
      unfold parseElements
      have eV : parseValue unesc (f + 1) depth cs = parseValue unesc f depth cs := ihV _ _ (by omega)
      simp only [eV]
      cases hv : parseValue unesc f depth cs with
      | none => rfl
      | some q =>
        obtain ⟨v, rest⟩ := q
        have l0 := (parse_length unesc hu f).1 _ _ _ _ hv
        dsimp only
        cases he : skipWs rest with
        | nil => rfl
        | cons e rest1 =>
          have l1 := skipWs_cons_length he
          have eE : parseElements unesc (f + 1) depth rest1 = parseElements unesc f depth rest1 :=
            ihE _ _ (by omega)
          simp only [eE]

/-- More fuel than `parseJson` gives does not change what is parsed. -/
theorem parseValue_fuel_adequate (unesc : Nat → List Char → Option (List Char × List Char))
    (hu : Shrinks unesc) (data : List Char) (depth extra : Nat) :
    parseValue unesc (2 * data.length + 2 + extra) depth data
      = parseValue unesc (2 * data.length + 2) depth data := by
  induction extra with
  | zero => rfl
  | succ k ih =>
    rw [← ih]
    exact (parse_fuel_succ unesc hu (2 * data.length + 2 + k)).1 depth data (by omega)

/-- More fuel than the length of the input does not change how a string literal is read. -/
theorem parseString_fuel_adequate (unesc : Nat → List Char → Option (List Char × List Char))
    (hu : Shrinks unesc) (cs acc : List Char) (extra : Nat) :
    parseString unesc (cs.length + extra) cs acc = parseString unesc cs.length cs acc := by
  induction extra with
  | zero => rfl
  | succ k ih =>
    rw [← ih]
    exact parseString_fuel unesc hu (cs.length + k) cs acc (by omega)

/-- The fuel that `parseJson` and `denoteJson` give is enough for either reading of the
escapes. -/
theorem parseJson_fuel_adequate (data : List Char) (depth extra : Nat) :
    parseValue unescapeUnit (2 * data.length + 2 + extra) depth data
      = parseValue unescapeUnit (2 * data.length + 2) depth data ∧
    parseValue unescapePaired (2 * data.length + 2 + extra) depth data
      = parseValue unescapePaired (2 * data.length + 2) depth data :=
  ⟨parseValue_fuel_adequate unescapeUnit unescapeUnit_shrinks data depth extra,
   parseValue_fuel_adequate unescapePaired unescapePaired_shrinks data depth extra⟩

/-! ## The decoder reads a text that keeps to Unicode as the value it denotes -/

theorem unescapeUnit_of_paired (n : Nat) (rest : List Char) (p : List Char × List Char)
    (h : unescapePaired n rest = some p) : unescapeUnit n rest = some p := by
  unfold unescapePaired at h
  unfold unescapeUnit
  split at h
  · rename_i hs
    split at h
    · rename_i hn
      split at h
      · rename_i b e more1
        split at h
        · rename_i hb
          split at h
          · rename_i m rest2 hm
            split at h
            · rename_i hlow
              simp only [hs, if_true, hb.1, hb.2, hm, hn, hlow, and_self]
              exact h
            · simp at h
          · simp at h
        · simp at h
      · simp at h
    · simp at h
  · rename_i hs
    simp only [hs, Bool.false_eq_true, if_false]
    exact h

theorem parseString_of_paired (fuel : Nat) :
    ∀ (cs acc : List Char) (r : String × List Char),
      parseString unescapePaired fuel cs acc = some r →
      parseString unescapeUnit fuel cs acc = some r := by
  induction fuel with
  | zero =>
    intro cs acc r h
    unfold parseString at h
    exact absurd h (by simp)
  | succ f ih =>
    intro cs acc r h
    cases cs with
    | nil =>
      unfold parseString at h
      exact absurd h (by simp)
    | cons c tl =>
      unfold parseString at h
      unfold parseString
      by_cases h1 : c = dquote
      · simp only [h1, if_true] at h ⊢
        exact h
      · simp only [h1, if_false] at h ⊢
        by_cases h2 : c = backslash
        · simp only [h2, if_true] at h ⊢
          cases tl with
          | nil => simp at h
          | cons e rest =>
            dsimp only at h ⊢
            by_cases h3 : e = 'u'
            · simp only [h3, if_true] at h ⊢
              cases hx : parseHex4 rest with
              | none => rw [hx] at h; simp at h
              | some p =>
                obtain ⟨n, rest2⟩ := p
                rw [hx] at h
                dsimp only at h ⊢
                cases hn : unescapePaired n rest2 with
                | none => rw [hn] at h; simp at h
                | some q =>
                  obtain ⟨chars, rest3⟩ := q
                  rw [hn] at h
                  rw [unescapeUnit_of_paired n rest2 _ hn]
                  dsimp only at h ⊢
                  exact ih _ _ _ h
            · simp only [h3, if_false] at h ⊢
              cases hs : simpleEscape e with
              | none => rw [hs] at h; simp at h
              | some x =>
                rw [hs] at h
                dsimp only at h ⊢
                exact ih _ _ _ h
        · simp only [h2, if_false] at h ⊢
          by_cases h4 : c.toNat < 32
          · simp [h4] at h
          · simp only [h4, if_false] at h ⊢
            exact ih _ _ _ h

/-- Whatever the parser reads pairing the escaped surrogates, it reads the same way with the
decoder's reading of `\\u` escapes. -/
theorem parse_of_paired (fuel : Nat) :
    (∀ depth cs r, parseValue unescapePaired fuel depth cs = some r →
      parseValue unescapeUnit fuel depth cs = some r) ∧
    (∀ depth cs r, parseMembers unescapePaired fuel depth cs = some r →
      parseMembers unescapeUnit fuel depth cs = some r) ∧
    (∀ depth cs r, parseElements unescapePaired fuel depth cs = some r →
      parseElements unescapeUnit fuel depth cs = some r) := by
  induction fuel with
  | zero =>
    refine ⟨?_, ?_, ?_⟩ <;> intro depth cs r h
    · unfold parseValue at h; exact absurd h (by simp)
    · unfold parseMembers at h; exact absurd h (by simp)
    · unfold parseElements at h; exact absurd h (by simp)
  | succ f ih =>
    obtain ⟨ihV, ihM, ihE⟩ := ih
    refine ⟨?_, ?_, ?_⟩
    · intro depth cs r h
      unfold parseValue at h
      unfold parseValue
      cases hc : skipWs cs with
      | nil => rw [hc] at h; simp at h
      | cons c rest =>
        rw [hc] at h
        dsimp only at h ⊢
        by_cases h1 : c = dquote
        · simp only [h1, if_true] at h ⊢
          cases hs : parseString unescapePaired rest.length rest [] with
          | none => rw [hs] at h; simp at h
          | some p =>
            rw [hs] at h
            rw [parseString_of_paired _ _ _ _ hs]
            exact h
        · simp only [h1, if_false] at h ⊢
          by_cases h2 : c = '{'
          · simp only [h2, if_true] at h ⊢
            by_cases hd : maxDepth ≤ depth
            · simp [hd] at h
            · simp only [hd, if_false] at h ⊢
              cases hw : skipWs rest with
              | nil => rw [hw] at h; simp at h
              | cons d rest1 =>
                rw [hw] at h
                dsimp only at h ⊢
                by_cases h3 : d = '}'
                · simp only [h3, if_true] at h ⊢
                  exact h
                · simp only [h3, if_false] at h ⊢
                  cases hm : parseMembers unescapePaired f (depth + 1) (d :: rest1) with
                  | none => rw [hm] at h; simp at h
                  | some p =>
                    rw [hm] at h
                    rw [ihM _ _ _ hm]
                    exact h
          · simp only [h2, if_false] at h ⊢
            by_cases h4 : c = '['
            · simp only [h4, if_true] at h ⊢
              by_cases hd : maxDepth ≤ depth
              · simp [hd] at h
              · simp only [hd, if_false] at h ⊢
                cases hw : skipWs rest with
                | nil => rw [hw] at h; simp at h
                | cons d rest1 =>
                  rw [hw] at h
                  dsimp only at h ⊢
                  by_cases h3 : d = ']'
                  · simp only [h3, if_true] at h ⊢
                    exact h
                  · simp only [h3, if_false] at h ⊢
                    cases hm : parseElements unescapePaired f (depth + 1) (d :: rest1) with
                    | none => rw [hm] at h; simp at h
                    | some p =>
                      rw [hm] at h
                      rw [ihE _ _ _ hm]
                      exact h
            · simp only [h4, if_false] at h ⊢
              exact h
    · intro depth cs r h
      unfold parseMembers at h
      unfold parseMembers
      cases hc : skipWs cs with
      | nil => rw [hc] at h; simp at h
      | cons c rest =>
        rw [hc] at h
        dsimp only at h ⊢
        by_cases h1 : c = dquote
        · simp only [h1, if_true] at h ⊢
          cases hs : parseString unescapePaired rest.length rest [] with
          | none => rw [hs] at h; simp at h
          | some p =>
            obtain ⟨k, rest1⟩ := p
            rw [hs] at h
            rw [parseString_of_paired _ _ _ _ hs]
            dsimp only at h ⊢
            cases hw : skipWs rest1 with
            | nil => rw [hw] at h; simp at h
            | cons d rest2 =>
              rw [hw] at h
              dsimp only at h ⊢
              by_cases h2 : d = ':'
              · simp only [h2, if_true] at h ⊢
                cases hv : parseValue unescapePaired f depth rest2 with
                | none => rw [hv] at h; simp at h
                | some q =>
                  obtain ⟨v, rest3⟩ := q
                  rw [hv] at h
                  rw [ihV _ _ _ hv]
                  dsimp only at h ⊢
                  cases hw2 : skipWs rest3 with
                  | nil => rw [hw2] at h; simp at h
                  | cons e rest4 =>
                    rw [hw2] at h
                    dsimp only at h ⊢
                    by_cases h3 : e = ','
                    · simp only [h3, if_true] at h ⊢
                      cases hm : parseMembers unescapePaired f depth rest4 with
                      | none => rw [hm] at h; simp at h
                      | some p2 =>
                        rw [hm] at h
                        rw [ihM _ _ _ hm]
                        exact h
                    · simp only [h3, if_false] at h ⊢
                      exact h
              · simp [h2] at h
        · simp [h1] at h
    · intro depth cs r h
      unfold parseElements at h
      unfold parseElements
      cases hv : parseValue unescapePaired f depth cs with
      | none => rw [hv] at h; simp at h
      | some q =>
        obtain ⟨v, rest⟩ := q
        rw [hv] at h
        rw [ihV _ _ _ hv]
        dsimp only at h ⊢
        cases hw : skipWs rest with
        | nil => rw [hw] at h; simp at h
        | cons e rest1 =>
          rw [hw] at h
          dsimp only at h ⊢
          by_cases h3 : e = ','
          · simp only [h3, if_true] at h ⊢
            cases hm : parseElements unescapePaired f depth rest1 with
            | none => rw [hm] at h; simp at h
            | some p2 =>
              rw [hm] at h
              rw [ihE _ _ _ hm]
              exact h
          · simp only [h3, if_false] at h ⊢
            exact h

/-- A text that denotes a value is read by the decoder as that value. -/
theorem parseJson_of_denoteJson (data : String) (x : Json) (h : denoteJson data = some x) :
    parseJson data = some x := by
  unfold denoteJson at h
  unfold parseJson
  cases hv : parseValue unescapePaired (2 * data.length + 2) 0 data.toList with
  | none => rw [hv] at h; simp at h
  | some q =>
    rw [hv] at h
    rw [(parse_of_paired _).1 _ _ _ hv]
    exact h

/-! ## Lemmas on the decoder -/

theorem float64Overflow_eq : float64Overflow = 2 ^ 1024 - 2 ^ 970 := by
  norm_num [float64Overflow]

theorem toInt64_ofInt (i : Int) (h : IsInt64 i) : (JNumber.ofInt i).toInt64 = some i := by
  obtain ⟨h1, h2⟩ := h
  have hv : (if decide (i < 0) = true then -((i.natAbs : Nat) : Int) else ((i.natAbs : Nat) : Int)) = i := by
    by_cases hneg : i < 0
    · simp only [hneg, decide_True, if_true]; omega
    · simp only [hneg, decide_False, Bool.false_eq_true, if_false]; omega
  simp only [JNumber.toInt64, JNumber.ofInt, and_self, if_true, hv, h1, h2]

theorem unmarshal_successEnvelope (bytes : String) (i : Int) (r : Json) (v : GoValue)
    (hi : IsInt64 i) (hp : parseJson bytes = some (successEnvelope i r))
    (hv : decodeAny r = some v) :
    unmarshalChromeResponse bytes = Except.ok { Id := i, Result := v } := by
  have h1 : fieldMatch "id" "id" = true := by decide
  have h2 : fieldMatch "result" "id" = false := by decide
  have h3 : fieldMatch "result" "result" = true := by decide
  simp [unmarshalChromeResponse, hp, successEnvelope, decodeChromeResponseFields, h1, h2, h3,
    decodeInt64, toInt64_ofInt i hi, hv]

theorem unmarshal_successEnvelopeSwapped (bytes : String) (i : Int) (r : Json) (v : GoValue)
    (hi : IsInt64 i) (hp : parseJson bytes = some (successEnvelopeSwapped i r))
    (hv : decodeAny r = some v) :
    unmarshalChromeResponse bytes = Except.ok { Id := i, Result := v } := by
  have h1 : fieldMatch "id" "id" = true := by decide
  have h2 : fieldMatch "result" "id" = false := by decide
  have h3 : fieldMatch "result" "result" = true := by decide
  simp [unmarshalChromeResponse, hp, successEnvelopeSwapped, decodeChromeResponseFields, h1, h2,
    h3, decodeInt64, toInt64_ofInt i hi, hv]

/-- The decoder on a success envelope whose result it can decode. -/
theorem unmarshal_of_isSuccessEnvelope (bytes : String) (x : Json) (i : Int) (r : Json)
    (v : GoValue) (hp : parseJson bytes = some x) (hx : IsSuccessEnvelope x i r)
    (hi : IsInt64 i) (hv : decodeAny r = some v) :
    unmarshalChromeResponse bytes = Except.ok { Id := i, Result := v } := by
  rcases hx with hx | hx
  · subst hx
    exact unmarshal_successEnvelope bytes i r v hi hp hv
  · subst hx
    exact unmarshal_successEnvelopeSwapped bytes i r v hi hp hv

mutual
/-- A value all of whose numbers are within the range of float64 is decoded. -/
theorem decodeAny_of_inRange : ∀ (r : Json), NumbersInRange r → ∃ v, decodeAny r = some v
  | Json.null, _ => ⟨GoValue.nil, by simp [decodeAny]⟩
  | Json.bool b, _ => ⟨GoValue.bool b, by simp [decodeAny]⟩
  | Json.num n, h => by
    simp only [NumbersInRange] at h
    exact ⟨GoValue.float64 n, by simp [decodeAny, h]⟩
  | Json.str s, _ => ⟨GoValue.string s, by simp [decodeAny]⟩
  | Json.arr xs, h => by
    simp only [NumbersInRange] at h
    obtain ⟨vs, hd⟩ := decodeElements_of_inRange xs h
    exact ⟨GoValue.slice vs, by simp [decodeAny, hd]⟩
  | Json.obj kvs, h => by
    simp only [NumbersInRange] at h
    obtain ⟨m, hd⟩ := decodeMembers_of_inRange kvs h []
    exact ⟨GoValue.map m, by simp [decodeAny, hd]⟩
theorem decodeElements_of_inRange : ∀ (xs : List Json), ElementsInRange xs →
    ∃ vs, decodeElements xs = some vs
  | [], _ => ⟨[], by simp [decodeElements]⟩
  | x :: xs, h => by
    simp only [ElementsInRange] at h
    obtain ⟨v, hd⟩ := decodeAny_of_inRange x h.1
    obtain ⟨vs, hds⟩ := decodeElements_of_inRange xs h.2
    exact ⟨v :: vs, by simp [decodeElements, hd, hds]⟩
theorem decodeMembers_of_inRange : ∀ (kvs : List (String × Json)), MembersInRange kvs →
    ∀ (acc : List (String × GoValue)), ∃ m, decodeMembers kvs acc = some m
  | [], _, acc => ⟨acc, by simp [decodeMembers]⟩
  | (k, x) :: rest, h, acc => by
    simp only [MembersInRange] at h
    obtain ⟨v, hd⟩ := decodeAny_of_inRange x h.1
    obtain ⟨m, hm⟩ := decodeMembers_of_inRange rest h.2 (mapInsert k v acc)
    exact ⟨m, by simp [decodeMembers, hd, hm]⟩
end

/-- Arrays that open at a depth from which the limit of the decoder is passed are not
read. -/
theorem parseValue_too_deep (unesc : Nat → List Char → Option (List Char × List Char))
    (n : Nat) : ∀ (depth fuel : Nat) (rest : List Char), maxDepth ≤ depth + n →
      parseValue unesc fuel depth (List.replicate (n + 1) '[' ++ rest) = none := by
  induction n with
  | zero =>
    intro depth fuel rest h
    cases fuel with
    | zero => unfold parseValue; rfl
    | succ f =>
      have hd : maxDepth ≤ depth := by simpa using h
      simp [parseValue, skipWs, isWs, dquote, hd]
  | succ m ih =>
    intro depth fuel rest h
    cases fuel with
    | zero => unfold parseValue; rfl
    | succ f =>
      by_cases hd : maxDepth ≤ depth
      · simp [parseValue, skipWs, isWs, dquote, hd]
      · cases f with
        | zero => simp [parseValue, parseElements, skipWs, isWs, dquote, hd, List.replicate_succ]
        | succ g =>
          have := ih (depth + 1) g rest (by omega)
          rw [List.replicate_succ, List.cons_append] at this
          simp [parseValue, parseElements, skipWs, isWs, dquote, hd, List.replicate_succ, this]

/-- A success envelope whose result is 10000 or more arrays one inside the other, which
makes 10001 or more levels with the envelope, is not read. -/
theorem parseJson_nestedArraysReply (n : Nat) (h : 10000 ≤ n) :
    parseJson (nestedArraysReply n) = none := by
  have hdeep : ∀ f, parseValue unescapeUnit f 1
      (List.replicate n '[' ++ (List.replicate n ']' ++ ['}'])) = none := by
    intro f
    obtain ⟨k, rfl⟩ : ∃ k, n = k + 1 := ⟨n - 1, by omega⟩
    exact parseValue_too_deep unescapeUnit k 1 f _ (by simp only [maxDepth]; omega)
  have hall : ∀ F, parseValue unescapeUnit F 0 (nestedArraysReply n).toList = none := by
    intro F
    rcases F with _ | _ | _ | F
    · simp [parseValue]
    · simp [nestedArraysReply, parseValue, parseMembers, skipWs, isWs, dquote, maxDepth]
    · simp [nestedArraysReply, parseValue, parseMembers, parseString, skipWs, isWs, dquote,
        backslash, maxDepth]
    · simp [nestedArraysReply, parseValue, parseMembers, parseString, skipWs, isWs, dquote,
        backslash, maxDepth, parseLiteral, parseNumber, takeMinus, parseIntPart, takeDigits,
        digitVal, natOfDigits, parseFrac, parseExp, hdeep]
  unfold parseJson
  rw [hall]

theorem unmarshal_nestedArraysReply (n : Nat) (h : 10000 ≤ n) :
    unmarshalChromeResponse (nestedArraysReply n) = Except.error GoError.JsonUnmarshal := by
  simp [unmarshalChromeResponse, parseJson_nestedArraysReply n h]

/-- The literal `1e400` is beyond the range of float64. -/
theorem huge_not_inFloat64Range :
    (JNumber.mk false 1 [] (some 400)).inFloat64Range = false := by
  have h5 : float64Overflow ≤ 10 ^ 400 := by
    norm_num [float64Overflow]
  have h6 : (400 : Int).toNat = 400 := rfl
  have h7 : ¬ 1 * 10 ^ 400 < float64Overflow := Nat.not_lt.mpr (by rw [Nat.one_mul]; exact h5)
  simp only [JNumber.inFloat64Range, List.length_nil, pow_zero, Nat.mul_one, List.foldl_nil,
    Nat.add_zero, Nat.one_ne_zero, if_false, Option.getD_some, Nat.cast_zero, sub_zero, h6,
    show (0 : Int) ≤ 400 from by decide, if_true, h7, decide_False]

theorem unmarshal_hugeNumberReply :
    unmarshalChromeResponse hugeNumberReply = Except.error GoError.JsonUnmarshal := by
  have hp : parseJson hugeNumberReply
      = some (successEnvelope 1 (Json.num (JNumber.mk false 1 [] (some 400)))) := rfl
  have h1 : fieldMatch "id" "id" = true := by decide
  have h2 : fieldMatch "result" "id" = false := by decide
  have h3 : fieldMatch "result" "result" = true := by decide
  have h4 : (JNumber.ofInt 1).toInt64 = some 1 := rfl
  simp [unmarshalChromeResponse, hp, successEnvelope, decodeChromeResponseFields, h1, h2, h3,
    decodeInt64, h4, decodeAny, huge_not_inFloat64Range]

theorem unmarshal_errorEnvelope (bytes : String) (i c : Int) (m : String) (hi : IsInt64 i)
    (hp : parseJson bytes = some (errorEnvelope i c m)) :
    unmarshalChromeResponse bytes = Except.ok { Id := i, Result := GoValue.nil } := by
  have h1 : fieldMatch "id" "id" = true := by decide
  have h2 : fieldMatch "error" "id" = false := by decide
  have h3 : fieldMatch "error" "result" = false := by decide
  simp [unmarshalChromeResponse, hp, errorEnvelope, decodeChromeResponseFields, h1, h2, h3,
    decodeInt64, toInt64_ofInt i hi]

theorem unmarshal_empty : unmarshalChromeResponse "" = Except.error GoError.JsonUnmarshal := by
  rfl

/-! ## Lemmas on the two primitives -/

theorem ChromeRequest_fields_eq (paramRequest : ParamRequest) :
    ChromeRequest.fields
        { Id := paramRequest.Id, Method := paramRequest.Method, Params := paramRequest.Params }
      = paramRequest.fields := rfl

/-- After a delivery `SendCustomReturn` hands the reply over as it is. -/
theorem SendCustomReturn_of_delivers (env : Env) (paramRequest : ParamRequest)
    (resp : Option Message) (h : Delivers env paramRequest resp) :
    (SendCustomReturn env paramRequest).value = resp ∧
    (SendCustomReturn env paramRequest).err = none := by
  obtain ⟨⟨data, hm⟩, hs, hr, hreply⟩ := h
  simp [SendCustomReturn, hm, hs, hr, hreply]

/-- After a delivery of a message with a payload, the results of `SendDefaultRequest` are
those of the decoder. -/
theorem SendDefaultRequest_of_delivers (env : Env) (paramRequest : ParamRequest)
    (m : Message) (bytes : String) (h : Delivers env paramRequest (some m))
    (hd : m.Data = some bytes) :
    (SendDefaultRequest env paramRequest).value = (unmarshalChromeResponse bytes).toOption ∧
    (SendDefaultRequest env paramRequest).err =
      (match unmarshalChromeResponse bytes with
        | Except.error e => some e
        | Except.ok _ => none) ∧
    Event.Unmarshal bytes ∈ (SendDefaultRequest env paramRequest).trace := by
  obtain ⟨⟨data, hm⟩, hs, hr, hreply⟩ := h
  cases hu : unmarshalChromeResponse bytes <;>
    simp [SendDefaultRequest, ChromeRequest_fields_eq, hm, hs, hr, hreply, hd, hu,
      Except.toOption]

/-- Every error envelope delivered after a successful send comes back from
`SendDefaultRequest` as a response with a nil Result and a nil error. -/
theorem SendDefaultRequest_error_envelope (env : Env) (paramRequest : ParamRequest)
    (m : Message) (bytes : String) (i c : Int) (msg : String)
    (hdel : Delivers env paramRequest (some m)) (hd : m.Data = some bytes)
    (hi : IsInt64 i) (hp : parseJson bytes = some (errorEnvelope i c msg)) :
    (SendDefaultRequest env paramRequest).value = some { Id := i, Result := GoValue.nil } ∧
    (SendDefaultRequest env paramRequest).err = none := by
  have h := SendDefaultRequest_of_delivers env paramRequest m bytes hdel hd
  rw [unmarshal_errorEnvelope bytes i c msg hi hp] at h
  exact ⟨h.1, h.2.1⟩

/-! ## Replies: error envelope, success envelope, empty replies -/

/-- C1: at the reply `{"id":5,"error":{"code":-32000,"message":"No node with given id found"}}`,
a well-formed error envelope delivered after a successful send, `SendDefaultRequest`
returns the response `{Id: 5, Result: nil}` with a nil error, and not a nil response with a
`ChromeRequestErr` carrying id 5, code -32000 and the message. -/
theorem C1_error_envelope_is_returned_as_success :
    parseJson errorReply = some (errorEnvelope 5 (-32000) "No node with given id found") ∧
    Delivers (deliveringEnv (some (replyMessage 5 (some errorReply)))) nodeRequest
      (some (replyMessage 5 (some errorReply))) ∧
    (SendDefaultRequest (deliveringEnv (some (replyMessage 5 (some errorReply))))
      nodeRequest).value = some { Id := 5, Result := GoValue.nil } ∧
    (SendDefaultRequest (deliveringEnv (some (replyMessage 5 (some errorReply))))
      nodeRequest).err = none ∧
    (SendDefaultRequest (deliveringEnv (some (replyMessage 5 (some errorReply))))
      nodeRequest).err ≠
        some (GoError.ChromeRequestErr (some (ChromeErrorResponse.mk 5
          (some (ChromeError.mk (-32000) "No node with given id found"))))) := by
  refine ⟨rfl, ⟨⟨_, rfl⟩, rfl, rfl, rfl⟩, rfl, rfl, ?_⟩
  intro h
  have h2 : (SendDefaultRequest (deliveringEnv (some (replyMessage 5 (some errorReply))))
      nodeRequest).err = none := rfl
  rw [h2] at h
  exact Option.noConfusion h

/-- C2, as stated, fails: the reply `{"id":1,"result":1e400}` is a well-formed success
envelope, with the id 1 and the result `1e400`, and when it is delivered after a successful
send, `SendDefaultRequest` returns a nil response with the error of the decoder: the result
is beyond the range of float64 and has no decoded value. So it does for the success
envelope whose result is 10001 arrays one inside the other, beyond the nesting that the
decoder accepts, for the success envelope `{"id":9223372036854775808,"result":null}`,
whose id is no int64, and for `{"id":1.0,"result":null}`, whose id is not written as an
integer. -/
theorem C2_success_envelope_counterexample :
    denoteJson hugeNumberReply
      = some (successEnvelope 1 (Json.num (JNumber.mk false 1 [] (some 400)))) ∧
    parseJson hugeNumberReply
      = some (successEnvelope 1 (Json.num (JNumber.mk false 1 [] (some 400)))) ∧
    decodeAny (Json.num (JNumber.mk false 1 [] (some 400))) = none ∧
    Delivers (deliveringEnv (some (replyMessage 1 (some hugeNumberReply)))) fooRequest
      (some (replyMessage 1 (some hugeNumberReply))) ∧
    (SendDefaultRequest (deliveringEnv (some (replyMessage 1 (some hugeNumberReply))))
      fooRequest).value = none ∧
    (SendDefaultRequest (deliveringEnv (some (replyMessage 1 (some hugeNumberReply))))
      fooRequest).err = some GoError.JsonUnmarshal ∧
    Delivers (deliveringEnv (some (replyMessage 1 (some (nestedArraysReply 10001)))))
      fooRequest (some (replyMessage 1 (some (nestedArraysReply 10001)))) ∧
    (SendDefaultRequest (deliveringEnv (some (replyMessage 1 (some (nestedArraysReply 10001)))))
      fooRequest).value = none ∧
    (SendDefaultRequest (deliveringEnv (some (replyMessage 1 (some (nestedArraysReply 10001)))))
      fooRequest).err = some GoError.JsonUnmarshal ∧
    denoteJson bigIdReply = some (successEnvelope 9223372036854775808 Json.null) ∧
    Delivers (deliveringEnv (some (replyMessage 1 (some bigIdReply)))) fooRequest
      (some (replyMessage 1 (some bigIdReply))) ∧
    (SendDefaultRequest (deliveringEnv (some (replyMessage 1 (some bigIdReply))))
      fooRequest).value = none ∧
    (SendDefaultRequest (deliveringEnv (some (replyMessage 1 (some bigIdReply))))
      fooRequest).err = some GoError.JsonUnmarshal ∧
    denoteJson fractionIdReply
      = some (Json.obj [("id", Json.num (JNumber.mk false 1 [0] none)), ("result", Json.null)]) ∧
    Delivers (deliveringEnv (some (replyMessage 1 (some fractionIdReply)))) fooRequest
      (some (replyMessage 1 (some fractionIdReply))) ∧
    (SendDefaultRequest (deliveringEnv (some (replyMessage 1 (some fractionIdReply))))
      fooRequest).value = none ∧
    (SendDefaultRequest (deliveringEnv (some (replyMessage 1 (some fractionIdReply))))
      fooRequest).err = some GoError.JsonUnmarshal := by
  have h := SendDefaultRequest_of_delivers
    (deliveringEnv (some (replyMessage 1 (some hugeNumberReply)))) fooRequest
    (replyMessage 1 (some hugeNumberReply)) hugeNumberReply ⟨⟨_, rfl⟩, rfl, rfl, rfl⟩ rfl
  rw [unmarshal_hugeNumberReply] at h
  have hdel : Delivers (deliveringEnv (some (replyMessage 1 (some (nestedArraysReply 10001)))))
      fooRequest (some (replyMessage 1 (some (nestedArraysReply 10001)))) :=
    ⟨⟨_, rfl⟩, rfl, rfl, rfl⟩
  have k := SendDefaultRequest_of_delivers
    (deliveringEnv (some (replyMessage 1 (some (nestedArraysReply 10001))))) fooRequest
    (replyMessage 1 (some (nestedArraysReply 10001))) (nestedArraysReply 10001) hdel rfl
  rw [unmarshal_nestedArraysReply 10001 (by omega)] at k
  refine ⟨rfl, rfl, ?_, ⟨⟨_, rfl⟩, rfl, rfl, rfl⟩, h.1, h.2.1, hdel, k.1, k.2.1, rfl,
    ⟨⟨_, rfl⟩, rfl, rfl, rfl⟩, rfl, rfl, rfl, ⟨⟨_, rfl⟩, rfl, rfl, rfl⟩, rfl, rfl⟩
  simp [decodeAny, huge_not_inFloat64Range]

/-- C2, amended: when the send succeeds and the reply channel delivers a message whose Data
the decoder reads as the success envelope with the int64 id `i` and the result `r`, the two
members in either order, and every number of `r` is within the range of float64, then `r`
has a decoded value and `SendDefaultRequest` returns the response with Id `i` and that value
as Result, and a nil error. -/
theorem C2_success_envelope_is_decoded (env : Env) (paramRequest : ParamRequest)
    (m : Message) (bytes : String) (x : Json) (i : Int) (r : Json)
    (hdel : Delivers env paramRequest (some m)) (hd : m.Data = some bytes)
    (hp : parseJson bytes = some x) (hx : IsSuccessEnvelope x i r)
    (hi : IsInt64 i) (hr : NumbersInRange r) :
    ∃ v, decodeAny r = some v ∧
      (SendDefaultRequest env paramRequest).value = some { Id := i, Result := v } ∧
      (SendDefaultRequest env paramRequest).err = none := by
  obtain ⟨v, hv⟩ := decodeAny_of_inRange r hr
  have h := SendDefaultRequest_of_delivers env paramRequest m bytes hdel hd
  rw [unmarshal_of_isSuccessEnvelope bytes x i r v hp hx hi hv] at h
  exact ⟨v, hv, h.1, h.2.1⟩

/-- Scenario 1: the reply `{"id":1,"result":{"x":1}}` to the call with id 1 is returned as
the response with Id 1 and Result `map[x:1]`, with a nil error; so is the reply
`{"result":{"x":1},"id":1}`. The reply `{"id":1,"result":"\ud83d\ud83d\ude00"}` is returned
with a Result of three characters U+FFFD. -/
theorem C2_success_envelope_is_decoded_witness :
    (parseJson resultReply
        = some (successEnvelope 1 (Json.obj [("x", Json.num (JNumber.ofInt 1))])) ∧
      (SendDefaultRequest (deliveringEnv (some (replyMessage 1 (some resultReply))))
        fooRequest).value
        = some { Id := 1, Result := GoValue.map [("x", GoValue.float64 (JNumber.ofInt 1))] } ∧
      (SendDefaultRequest (deliveringEnv (some (replyMessage 1 (some resultReply))))
        fooRequest).err = none) ∧
    (parseJson swappedReply
        = some (successEnvelopeSwapped 1 (Json.obj [("x", Json.num (JNumber.ofInt 1))])) ∧
      (SendDefaultRequest (deliveringEnv (some (replyMessage 1 (some swappedReply))))
        fooRequest).value
        = some { Id := 1, Result := GoValue.map [("x", GoValue.float64 (JNumber.ofInt 1))] } ∧
      (SendDefaultRequest (deliveringEnv (some (replyMessage 1 (some swappedReply))))
        fooRequest).err = none) ∧
    (parseJson brokenSurrogatesReply
        = some (successEnvelope 1
            (Json.str (String.mk [replacementChar, replacementChar, replacementChar]))) ∧
      (SendDefaultRequest (deliveringEnv (some (replyMessage 1 (some brokenSurrogatesReply))))
        fooRequest).value
        = some (ChromeResponse.mk 1 (GoValue.string
            (String.mk [replacementChar, replacementChar, replacementChar]))) ∧
      (SendDefaultRequest (deliveringEnv (some (replyMessage 1 (some brokenSurrogatesReply))))
        fooRequest).err = none) := by
  have hr : NumbersInRange (Json.obj [("x", Json.num (JNumber.ofInt 1))]) := by
    simp only [NumbersInRange, MembersInRange, and_true]
    rfl
  have hv : decodeAny (Json.obj [("x", Json.num (JNumber.ofInt 1))])
      = some (GoValue.map [("x", GoValue.float64 (JNumber.ofInt 1))]) := rfl
  obtain ⟨v, h0, h1, h2⟩ := C2_success_envelope_is_decoded
    (deliveringEnv (some (replyMessage 1 (some resultReply))))
    fooRequest (replyMessage 1 (some resultReply)) resultReply
    (successEnvelope 1 (Json.obj [("x", Json.num (JNumber.ofInt 1))])) 1
    (Json.obj [("x", Json.num (JNumber.ofInt 1))])
    ⟨⟨_, rfl⟩, rfl, rfl, rfl⟩ rfl rfl (Or.inl rfl) (by decide) hr
  obtain ⟨w, k0, k1, k2⟩ := C2_success_envelope_is_decoded
    (deliveringEnv (some (replyMessage 1 (some swappedReply))))
    fooRequest (replyMessage 1 (some swappedReply)) swappedReply
    (successEnvelopeSwapped 1 (Json.obj [("x", Json.num (JNumber.ofInt 1))])) 1
    (Json.obj [("x", Json.num (JNumber.ofInt 1))])
    ⟨⟨_, rfl⟩, rfl, rfl, rfl⟩ rfl rfl (Or.inr rfl) (by decide) hr
  obtain ⟨u, l0, l1, l2⟩ := C2_success_envelope_is_decoded
    (deliveringEnv (some (replyMessage 1 (some brokenSurrogatesReply))))
    fooRequest (replyMessage 1 (some brokenSurrogatesReply)) brokenSurrogatesReply
    (successEnvelope 1
      (Json.str (String.mk [replacementChar, replacementChar, replacementChar]))) 1
    (Json.str (String.mk [replacementChar, replacementChar, replacementChar]))
    ⟨⟨_, rfl⟩, rfl, rfl, rfl⟩ rfl rfl (Or.inl rfl) (by decide) (by simp only [NumbersInRange])
  have hu : decodeAny (Json.str (String.mk [replacementChar, replacementChar, replacementChar]))
      = some (GoValue.string
          (String.mk [replacementChar, replacementChar, replacementChar])) := rfl
  rw [hv] at h0 k0
  rw [hu] at l0
  cases h0
  cases k0
  cases l0
  exact ⟨⟨rfl, h1, h2⟩, ⟨rfl, k1, k2⟩, ⟨rfl, l1, l2⟩⟩

/-- C3: when the send succeeds and the reply channel delivers a nil message or a message
whose Data is nil, `SendDefaultRequest` returns (nil, ChromeEmptyResponseErr) and the
decoder is not called. -/
theorem C3_nil_reply_is_empty_response (env : Env) (paramRequest : ParamRequest)
    (resp : Option Message) (hdel : Delivers env paramRequest resp)
    (hnil : resp = none ∨ ∃ m, resp = some m ∧ m.Data = none) :
    (SendDefaultRequest env paramRequest).value = none ∧
    (SendDefaultRequest env paramRequest).err = some GoError.ChromeEmptyResponseErr ∧
    ∀ bytes, Event.Unmarshal bytes ∉ (SendDefaultRequest env paramRequest).trace := by
  obtain ⟨⟨data, hm⟩, hs, hr, hreply⟩ := hdel
  rcases hnil with h | ⟨m, h, hd⟩
  · subst h
    simp [SendDefaultRequest, ChromeRequest_fields_eq, hm, hs, hr, hreply]
  · subst h
    simp [SendDefaultRequest, ChromeRequest_fields_eq, hm, hs, hr, hreply, hd]

/-- A nil reply, and a reply with nil Data, to the call with id 1. -/
theorem C3_nil_reply_is_empty_response_witness :
    ((SendDefaultRequest (deliveringEnv none) fooRequest).value = none ∧
      (SendDefaultRequest (deliveringEnv none) fooRequest).err
        = some GoError.ChromeEmptyResponseErr ∧
      ∀ bytes, Event.Unmarshal bytes ∉ (SendDefaultRequest (deliveringEnv none) fooRequest).trace) ∧
    ((SendDefaultRequest (deliveringEnv (some (replyMessage 1 none))) fooRequest).value = none ∧
      (SendDefaultRequest (deliveringEnv (some (replyMessage 1 none))) fooRequest).err
        = some GoError.ChromeEmptyResponseErr ∧
      ∀ bytes, Event.Unmarshal bytes ∉
        (SendDefaultRequest (deliveringEnv (some (replyMessage 1 none))) fooRequest).trace) :=
  ⟨C3_nil_reply_is_empty_response (deliveringEnv none) fooRequest none
      ⟨⟨_, rfl⟩, rfl, rfl, rfl⟩ (Or.inl rfl),
   C3_nil_reply_is_empty_response (deliveringEnv (some (replyMessage 1 none))) fooRequest
      (some (replyMessage 1 none)) ⟨⟨_, rfl⟩, rfl, rfl, rfl⟩
      (Or.inr ⟨replyMessage 1 none, rfl, rfl⟩)⟩

/-- C4, as stated, fails: with a reply whose Data is the empty non-nil byte slice the call
returns the error of the decoder, not ChromeEmptyResponseErr. -/
theorem C4_zero_length_payload_counterexample :
    Delivers (deliveringEnv (some (replyMessage 1 (some "")))) fooRequest
      (some (replyMessage 1 (some ""))) ∧
    (SendDefaultRequest (deliveringEnv (some (replyMessage 1 (some "")))) fooRequest).err
      = some GoError.JsonUnmarshal ∧
    (SendDefaultRequest (deliveringEnv (some (replyMessage 1 (some "")))) fooRequest).err
      ≠ some GoError.ChromeEmptyResponseErr := by
  refine ⟨⟨⟨_, rfl⟩, rfl, rfl, rfl⟩, rfl, ?_⟩
  intro h
  have h2 : (SendDefaultRequest (deliveringEnv (some (replyMessage 1 (some "")))) fooRequest).err
      = some GoError.JsonUnmarshal := rfl
  rw [h2] at h
  exact GoError.noConfusion (Option.some.inj h)

/-- C4, amended: when the send succeeds and the reply channel delivers a message whose Data
is a zero-length non-nil byte slice, `SendDefaultRequest` fails with the error of the
decoder, to which it has passed the payload, and a nil response, not with
ChromeEmptyResponseErr. -/
theorem C4_zero_length_payload_is_decode_error (env : Env) (paramRequest : ParamRequest)
    (m : Message) (hdel : Delivers env paramRequest (some m)) (hd : m.Data = some "") :
    (SendDefaultRequest env paramRequest).value = none ∧
    (SendDefaultRequest env paramRequest).err = some GoError.JsonUnmarshal ∧
    (SendDefaultRequest env paramRequest).err ≠ some GoError.ChromeEmptyResponseErr ∧
    Event.Unmarshal "" ∈ (SendDefaultRequest env paramRequest).trace := by
  have h := SendDefaultRequest_of_delivers env paramRequest m "" hdel hd
  rw [unmarshal_empty] at h
  refine ⟨h.1, h.2.1, ?_, h.2.2⟩
  rw [h.2.1]
  intro he
  exact GoError.noConfusion (Option.some.inj he)

/-- A reply with empty non-nil Data to the call with id 1. -/
theorem C4_zero_length_payload_is_decode_error_witness :
    (SendDefaultRequest (deliveringEnv (some (replyMessage 1 (some "")))) fooRequest).value
      = none ∧
    (SendDefaultRequest (deliveringEnv (some (replyMessage 1 (some "")))) fooRequest).err
      = some GoError.JsonUnmarshal ∧
    (SendDefaultRequest (deliveringEnv (some (replyMessage 1 (some "")))) fooRequest).err
      ≠ some GoError.ChromeEmptyResponseErr ∧
    Event.Unmarshal "" ∈
      (SendDefaultRequest (deliveringEnv (some (replyMessage 1 (some "")))) fooRequest).trace :=
  C4_zero_length_payload_is_decode_error (deliveringEnv (some (replyMessage 1 (some ""))))
    fooRequest (replyMessage 1 (some "")) ⟨⟨_, rfl⟩, rfl, rfl, rfl⟩ rfl

/-- C5, as stated, fails: when the reply channel delivers a nil message, `SendCustomReturn`
returns a nil message with a nil error; when it delivers a message without payload, it
returns that message with a nil error. -/
theorem C5_custom_return_empty_reply_counterexample :
    Delivers (deliveringEnv none) fooRequest none ∧
    (SendCustomReturn (deliveringEnv none) fooRequest).value = none ∧
    (SendCustomReturn (deliveringEnv none) fooRequest).err = none ∧
    Delivers (deliveringEnv (some (replyMessage 1 none))) fooRequest
      (some (replyMessage 1 none)) ∧
    (SendCustomReturn (deliveringEnv (some (replyMessage 1 none))) fooRequest).value
      = some (replyMessage 1 none) ∧
    (SendCustomReturn (deliveringEnv (some (replyMessage 1 none))) fooRequest).err = none := by
  exact ⟨⟨⟨_, rfl⟩, rfl, rfl, rfl⟩, rfl, rfl, ⟨⟨_, rfl⟩, rfl, rfl, rfl⟩, rfl, rfl⟩

/-- C5, amended: when the send succeeds and the reply channel delivers a nil message or a
message with an empty or absent payload, `SendCustomReturn` returns what was delivered, as
it is, with a nil error. -/
theorem C5_custom_return_hands_reply_over (env : Env) (paramRequest : ParamRequest)
    (resp : Option Message) (hdel : Delivers env paramRequest resp)
    (_hempty : resp = none ∨ ∃ m, resp = some m ∧ (m.Data = none ∨ m.Data = some "")) :
    (SendCustomReturn env paramRequest).value = resp ∧
    (SendCustomReturn env paramRequest).err = none :=
  SendCustomReturn_of_delivers env paramRequest resp hdel

/-- A reply with empty non-nil Data to the call with id 1 is handed over as it is. -/
theorem C5_custom_return_hands_reply_over_witness :
    (SendCustomReturn (deliveringEnv (some (replyMessage 1 (some "")))) fooRequest).value
      = some (replyMessage 1 (some "")) ∧
    (SendCustomReturn (deliveringEnv (some (replyMessage 1 (some "")))) fooRequest).err = none :=
  C5_custom_return_hands_reply_over (deliveringEnv (some (replyMessage 1 (some ""))))
    fooRequest (some (replyMessage 1 (some ""))) ⟨⟨_, rfl⟩, rfl, rfl, rfl⟩
    (Or.inr ⟨replyMessage 1 (some ""), rfl, Or.inr rfl⟩)

/-! ## The two phases -/

theorem goSelect_only_send (c : SelectCase) (pick : Nat) :
    selectSend (Ready.only c) pick = c := by
  cases c <;> simp [selectSend, goSelect, Ready.only, Nat.mod_one]

theorem goSelect_only_recv (c : SelectCase) (pick : Nat) :
    selectRecv (Ready.only c) pick = c := by
  cases c <;> simp [selectRecv, goSelect, Ready.only, Nat.mod_one]

/-- C6: for both primitives, once the request is serialized: a send select resolved by the
context, the timer or the done channel returns (nil, ChromeCtxDoneErr),
(nil, ChromeApiTimeoutErr), (nil, ChromeDoneErr); so does a receive select after a send;
and after a failed send phase the receive phase is not entered: no reply is received, no
Response is notified, and the call is the same whatever the state of the receive phase. -/
theorem C6_phase_failures (env : Env) (paramRequest : ParamRequest) (data : String)
    (hm : jsonMarshal paramRequest.fields = Except.ok data) :
    (selectSend env.sendReady env.sendPick = SelectCase.ctxDone →
      (SendCustomReturn env paramRequest).Fails GoError.ChromeCtxDoneErr ∧
      (SendDefaultRequest env paramRequest).Fails GoError.ChromeCtxDoneErr) ∧
    (selectSend env.sendReady env.sendPick = SelectCase.timer →
      (SendCustomReturn env paramRequest).Fails GoError.ChromeApiTimeoutErr ∧
      (SendDefaultRequest env paramRequest).Fails GoError.ChromeApiTimeoutErr) ∧
    (selectSend env.sendReady env.sendPick = SelectCase.targetDone →
      (SendCustomReturn env paramRequest).Fails GoError.ChromeDoneErr ∧
      (SendDefaultRequest env paramRequest).Fails GoError.ChromeDoneErr) ∧
    (selectSend env.sendReady env.sendPick = SelectCase.comm →
      (selectRecv env.recvReady env.recvPick = SelectCase.ctxDone →
        (SendCustomReturn env paramRequest).Fails GoError.ChromeCtxDoneErr ∧
        (SendDefaultRequest env paramRequest).Fails GoError.ChromeCtxDoneErr) ∧
      (selectRecv env.recvReady env.recvPick = SelectCase.timer →
        (SendCustomReturn env paramRequest).Fails GoError.ChromeApiTimeoutErr ∧
        (SendDefaultRequest env paramRequest).Fails GoError.ChromeApiTimeoutErr) ∧
      (selectRecv env.recvReady env.recvPick = SelectCase.targetDone →
        (SendCustomReturn env paramRequest).Fails GoError.ChromeDoneErr ∧
        (SendDefaultRequest env paramRequest).Fails GoError.ChromeDoneErr)) ∧
    (selectSend env.sendReady env.sendPick ≠ SelectCase.comm →
      (∀ e ∈ (SendCustomReturn env paramRequest).trace,
        e.isRecv = false ∧ e.isResponse = false) ∧
      (∀ e ∈ (SendDefaultRequest env paramRequest).trace,
        e.isRecv = false ∧ e.isResponse = false) ∧
      (∀ r k resp,
        SendCustomReturn { env with recvReady := r, recvPick := k, reply := resp } paramRequest
          = SendCustomReturn env paramRequest ∧
        SendDefaultRequest { env with recvReady := r, recvPick := k, reply := resp } paramRequest
          = SendDefaultRequest env paramRequest)) := by
  refine ⟨?_, ?_, ?_, ?_, ?_⟩
  · intro hs
    simp [Returned.Fails, SendCustomReturn, SendDefaultRequest, ChromeRequest_fields_eq, hm, hs]
  · intro hs
    simp [Returned.Fails, SendCustomReturn, SendDefaultRequest, ChromeRequest_fields_eq, hm, hs]
  · intro hs
    simp [Returned.Fails, SendCustomReturn, SendDefaultRequest, ChromeRequest_fields_eq, hm, hs]
  · intro hs
    refine ⟨?_, ?_, ?_⟩ <;> intro hr <;>
      simp [Returned.Fails, SendCustomReturn, SendDefaultRequest, ChromeRequest_fields_eq, hm,
        hs, hr]
  · intro hs
    cases hc : selectSend env.sendReady env.sendPick <;>
      simp_all [SendCustomReturn, SendDefaultRequest, ChromeRequest_fields_eq, Event.isRecv,
        Event.isResponse]

/-- Each of the three failures, in each of the two phases, for the call with id 1. -/
theorem C6_phase_failures_witness :
    (SendCustomReturn (phaseEnv SelectCase.ctxDone SelectCase.comm none) fooRequest).Fails
      GoError.ChromeCtxDoneErr ∧
    (SendDefaultRequest (phaseEnv SelectCase.timer SelectCase.comm none) fooRequest).Fails
      GoError.ChromeApiTimeoutErr ∧
    (SendCustomReturn (phaseEnv SelectCase.targetDone SelectCase.comm none) fooRequest).Fails
      GoError.ChromeDoneErr ∧
    (SendDefaultRequest (phaseEnv SelectCase.comm SelectCase.ctxDone none) fooRequest).Fails
      GoError.ChromeCtxDoneErr ∧
    (SendCustomReturn (phaseEnv SelectCase.comm SelectCase.timer none) fooRequest).Fails
      GoError.ChromeApiTimeoutErr ∧
    (SendDefaultRequest (phaseEnv SelectCase.comm SelectCase.targetDone none) fooRequest).Fails
      GoError.ChromeDoneErr ∧
    (∀ e ∈ (SendCustomReturn (phaseEnv SelectCase.timer SelectCase.comm none) fooRequest).trace,
      e.isRecv = false ∧ e.isResponse = false) := by
  have marshalled : jsonMarshal fooRequest.fields
      = Except.ok "\x7b\"id\":1,\"method\":\"Foo.bar\"\x7d" := rfl
  have h1 := (C6_phase_failures (phaseEnv SelectCase.ctxDone SelectCase.comm none) fooRequest _
    marshalled).1 rfl
  have h2 := (C6_phase_failures (phaseEnv SelectCase.timer SelectCase.comm none) fooRequest _
    marshalled).2.1 rfl
  have h3 := (C6_phase_failures (phaseEnv SelectCase.targetDone SelectCase.comm none) fooRequest _
    marshalled).2.2.1 rfl
  have h4 := ((C6_phase_failures (phaseEnv SelectCase.comm SelectCase.ctxDone none) fooRequest _
    marshalled).2.2.2.1 rfl).1 rfl
  have h5 := ((C6_phase_failures (phaseEnv SelectCase.comm SelectCase.timer none) fooRequest _
    marshalled).2.2.2.1 rfl).2.1 rfl
  have h6 := ((C6_phase_failures (phaseEnv SelectCase.comm SelectCase.targetDone none) fooRequest _
    marshalled).2.2.2.1 rfl).2.2 rfl
  have h7 := ((C6_phase_failures (phaseEnv SelectCase.timer SelectCase.comm none) fooRequest _
    marshalled).2.2.2.2 (by decide)).1
  exact ⟨h1.1, h2.2, h3.1, h4.2, h5.1, h6.2, h7⟩

/-! ## Serialization failure -/

/-- C7: when the serialization of the request fails with `err`, both primitives return
(nil, err) and the whole of the call is one Request notification carrying the id, the
method, no data and `err`: nothing is sent, nothing is received, no Response is notified. -/
theorem C7_serialization_failure (env : Env) (paramRequest : ParamRequest) (err : GoError)
    (hm : jsonMarshal paramRequest.fields = Except.error err) :
    (SendCustomReturn env paramRequest).Fails err ∧
    (SendCustomReturn env paramRequest).trace
      = [Event.ObserveRequest paramRequest.Id paramRequest.Method none (some err)] ∧
    (SendDefaultRequest env paramRequest).Fails err ∧
    (SendDefaultRequest env paramRequest).trace
      = [Event.ObserveRequest paramRequest.Id paramRequest.Method none (some err)] := by
  simp [Returned.Fails, SendCustomReturn, SendDefaultRequest, ChromeRequest_fields_eq, hm]

/-- A request whose parameters hold a channel: the encoder rejects it. -/
theorem C7_serialization_failure_witness :
    jsonMarshal chanRequest.fields
      = Except.error (GoError.JsonMarshal "json: unsupported type: chan int") ∧
    (SendCustomReturn (deliveringEnv none) chanRequest).Fails
      (GoError.JsonMarshal "json: unsupported type: chan int") ∧
    (SendCustomReturn (deliveringEnv none) chanRequest).trace
      = [Event.ObserveRequest 3 "Foo.bar" none
          (some (GoError.JsonMarshal "json: unsupported type: chan int"))] ∧
    (SendDefaultRequest (deliveringEnv none) chanRequest).Fails
      (GoError.JsonMarshal "json: unsupported type: chan int") ∧
    (SendDefaultRequest (deliveringEnv none) chanRequest).trace
      = [Event.ObserveRequest 3 "Foo.bar" none
          (some (GoError.JsonMarshal "json: unsupported type: chan int"))] :=
  ⟨rfl, C7_serialization_failure (deliveringEnv none) chanRequest
    (GoError.JsonMarshal "json: unsupported type: chan int") rfl⟩

/-! ## Cancellation and shutdown against the other cases of a select -/

/-- C8, as stated, fails: with the context cancelled from the start and the outbound
channel able to accept, select may pick the send, and the message is placed on the
outbound channel; when the reply is waiting as well, the call can even return it with a
nil error. -/
theorem C8_cancelled_context_counterexample :
    cancelledSendEnv.sendReady.ctxDone = true ∧
    Event.Send (Message.mk (some ⟨1, 1⟩) 1
        (some "\x7b\"id\":1,\"method\":\"Foo.bar\"\x7d") "" none)
      ∈ (SendCustomReturn cancelledSendEnv fooRequest).trace ∧
    Event.Send (Message.mk (some ⟨1, 1⟩) 1
        (some "\x7b\"id\":1,\"method\":\"Foo.bar\"\x7d") "" none)
      ∈ (SendDefaultRequest cancelledSendEnv fooRequest).trace ∧
    cancelledReplyEnv.sendReady.ctxDone = true ∧
    cancelledReplyEnv.recvReady.ctxDone = true ∧
    (SendCustomReturn cancelledReplyEnv fooRequest).value
      = some (replyMessage 1 (some resultReply)) ∧
    (SendCustomReturn cancelledReplyEnv fooRequest).err = none ∧
    (SendDefaultRequest cancelledReplyEnv fooRequest).err = none := by
  refine ⟨rfl, ?_, ?_, rfl, rfl, rfl, rfl, rfl⟩
  · exact List.Mem.tail _ (List.Mem.head _)
  · exact List.Mem.tail _ (List.Mem.head _)

/-- C8, amended: when the context is already cancelled as the send phase begins and no
other case of the send select can proceed, both primitives fail with ChromeCtxDoneErr and
no message is placed on the outbound channel, whatever the scheduler picks. -/
theorem C8_cancelled_context_alone (env : Env) (paramRequest : ParamRequest) (data : String)
    (hm : jsonMarshal paramRequest.fields = Except.ok data)
    (hctx : env.sendReady.ctxDone = true) (hcomm : env.sendReady.comm = false)
    (htimer : env.sendReady.timer = false) (hdone : env.sendReady.targetDone = false) :
    (SendCustomReturn env paramRequest).Fails GoError.ChromeCtxDoneErr ∧
    (∀ e ∈ (SendCustomReturn env paramRequest).trace, e.isSend = false) ∧
    (SendDefaultRequest env paramRequest).Fails GoError.ChromeCtxDoneErr ∧
    (∀ e ∈ (SendDefaultRequest env paramRequest).trace, e.isSend = false) := by
  have hs : selectSend env.sendReady env.sendPick = SelectCase.ctxDone := by
    simp [selectSend, goSelect, hctx, hcomm, htimer, hdone, Nat.mod_one]
  simp [Returned.Fails, SendCustomReturn, SendDefaultRequest, ChromeRequest_fields_eq, hm, hs,
    Event.isSend]

/-- The context is cancelled and nothing else can proceed, for the call with id 5. -/
theorem C8_cancelled_context_alone_witness :
    (SendCustomReturn (phaseEnv SelectCase.ctxDone SelectCase.ctxDone none) nodeRequest).Fails
      GoError.ChromeCtxDoneErr ∧
    (∀ e ∈ (SendCustomReturn (phaseEnv SelectCase.ctxDone SelectCase.ctxDone none)
      nodeRequest).trace, e.isSend = false) ∧
    (SendDefaultRequest (phaseEnv SelectCase.ctxDone SelectCase.ctxDone none) nodeRequest).Fails
      GoError.ChromeCtxDoneErr ∧
    (∀ e ∈ (SendDefaultRequest (phaseEnv SelectCase.ctxDone SelectCase.ctxDone none)
      nodeRequest).trace, e.isSend = false) :=
  C8_cancelled_context_alone (phaseEnv SelectCase.ctxDone SelectCase.ctxDone none) nodeRequest
    "\x7b\"id\":5,\"method\":\"DOM.describeNode\",\"params\":\x7b\"nodeId\":99\x7d\x7d"
    rfl rfl rfl rfl rfl

/-- C9, as stated, fails: with the done channel closed in the receive phase while a reply
is waiting, select may pick the receive and the call returns the reply with a nil error;
with the done channel closed in the send phase while the context is cancelled, select may
pick the context and the call fails with ChromeCtxDoneErr. -/
theorem C9_shutdown_counterexample :
    shutdownReplyEnv.recvReady.targetDone = true ∧
    (SendCustomReturn shutdownReplyEnv fooRequest).value
      = some (replyMessage 1 (some resultReply)) ∧
    (SendCustomReturn shutdownReplyEnv fooRequest).err = none ∧
    (SendDefaultRequest shutdownReplyEnv fooRequest).err = none ∧
    shutdownCancelledEnv.sendReady.targetDone = true ∧
    (SendCustomReturn shutdownCancelledEnv fooRequest).err = some GoError.ChromeCtxDoneErr ∧
    (SendDefaultRequest shutdownCancelledEnv fooRequest).err
      = some GoError.ChromeCtxDoneErr := by
  exact ⟨rfl, rfl, rfl, rfl, rfl, rfl, rfl⟩

/-- C9, amended: when the done channel of the target is observable in the send phase, or
in the receive phase after a send, and no other case of the select of that phase can
proceed, both primitives fail with ChromeDoneErr, whatever the scheduler picks. -/
theorem C9_shutdown_alone (env : Env) (paramRequest : ParamRequest) (data : String)
    (hm : jsonMarshal paramRequest.fields = Except.ok data) :
    (env.sendReady = ⟨false, false, false, true⟩ →
      (SendCustomReturn env paramRequest).Fails GoError.ChromeDoneErr ∧
      (SendDefaultRequest env paramRequest).Fails GoError.ChromeDoneErr) ∧
    (selectSend env.sendReady env.sendPick = SelectCase.comm →
      env.recvReady = ⟨false, false, false, true⟩ →
      (SendCustomReturn env paramRequest).Fails GoError.ChromeDoneErr ∧
      (SendDefaultRequest env paramRequest).Fails GoError.ChromeDoneErr) := by
  constructor
  · intro hready
    have hs : selectSend env.sendReady env.sendPick = SelectCase.targetDone := by
      simp [selectSend, goSelect, hready, Nat.mod_one]
    simp [Returned.Fails, SendCustomReturn, SendDefaultRequest, ChromeRequest_fields_eq, hm, hs]
  · intro hs hready
    have hr : selectRecv env.recvReady env.recvPick = SelectCase.targetDone := by
      simp [selectRecv, goSelect, hready, Nat.mod_one]
    simp [Returned.Fails, SendCustomReturn, SendDefaultRequest, ChromeRequest_fields_eq, hm, hs,
      hr]

/-- The done channel is closed and nothing else can proceed, in the send phase and in the
receive phase, for the call with id 1. -/
theorem C9_shutdown_alone_witness :
    (SendCustomReturn (phaseEnv SelectCase.targetDone SelectCase.comm none) fooRequest).Fails
      GoError.ChromeDoneErr ∧
    (SendDefaultRequest (phaseEnv SelectCase.targetDone SelectCase.comm none) fooRequest).Fails
      GoError.ChromeDoneErr ∧
    (SendCustomReturn (phaseEnv SelectCase.comm SelectCase.targetDone none) fooRequest).Fails
      GoError.ChromeDoneErr ∧
    (SendDefaultRequest (phaseEnv SelectCase.comm SelectCase.targetDone none) fooRequest).Fails
      GoError.ChromeDoneErr := by
  have marshalled : jsonMarshal fooRequest.fields
      = Except.ok "\x7b\"id\":1,\"method\":\"Foo.bar\"\x7d" := rfl
  have h1 := (C9_shutdown_alone (phaseEnv SelectCase.targetDone SelectCase.comm none)
    fooRequest _ marshalled).1 rfl
  have h2 := (C9_shutdown_alone (phaseEnv SelectCase.comm SelectCase.targetDone none)
    fooRequest _ marshalled).2 rfl rfl
  exact ⟨h1.1, h1.2, h2.1, h2.2⟩

/-! ## Notifications -/

theorem trace_shape_SendCustomReturn (env : Env) (paramRequest : ParamRequest) (data : String)
    (hm : jsonMarshal paramRequest.fields = Except.ok data) :
    TraceShape env paramRequest data (SendCustomReturn env paramRequest).trace := by
  unfold TraceShape
  cases hs : selectSend env.sendReady env.sendPick
  case comm =>
    cases hr : selectRecv env.recvReady env.recvPick <;>
      simp [SendCustomReturn, hm, hs, hr]
  all_goals simp [SendCustomReturn, hm, hs]

theorem trace_shape_SendDefaultRequest (env : Env) (paramRequest : ParamRequest) (data : String)
    (hm : jsonMarshal paramRequest.fields = Except.ok data) :
    TraceShape env paramRequest data (SendDefaultRequest env paramRequest).trace := by
  unfold TraceShape
  cases hs : selectSend env.sendReady env.sendPick
  case comm =>
    cases hr : selectRecv env.recvReady env.recvPick
    case comm =>
      rcases hreply : env.reply with _ | m
      · simp [SendDefaultRequest, ChromeRequest_fields_eq, hm, hs, hr, hreply]
      · rcases hd : m.Data with _ | bytes
        · simp [SendDefaultRequest, ChromeRequest_fields_eq, hm, hs, hr, hreply, hd]
        · cases hu : unmarshalChromeResponse bytes <;>
            simp [SendDefaultRequest, ChromeRequest_fields_eq, hm, hs, hr, hreply, hd, hu]
    all_goals simp [SendDefaultRequest, ChromeRequest_fields_eq, hm, hs, hr]
  all_goals simp [SendDefaultRequest, ChromeRequest_fields_eq, hm, hs]

theorem notified_of_trace_shape (env : Env) (paramRequest : ParamRequest) (data : String)
    (tr : List Event) (hm : jsonMarshal paramRequest.fields = Except.ok data)
    (h : TraceShape env paramRequest data tr) :
    NotifiedOncePerPhase env paramRequest tr := by
  have hok : ∃ d, jsonMarshal paramRequest.fields = Except.ok d := ⟨data, hm⟩
  rcases h with ⟨hs, e, rfl⟩ | ⟨hs, hr, e, rfl⟩ | ⟨hs, hr, tail, rfl, htail⟩
  · simp [NotifiedOncePerPhase, SendPhaseOk, RecvPhaseOk, notifications, hok, hs,
      Event.isRequest, Event.isResponse, Event.isSend, Event.noteErr]
  · simp [NotifiedOncePerPhase, SendPhaseOk, RecvPhaseOk, notifications, hok, hs, hr,
      Event.isRequest, Event.isResponse, Event.isSend, Event.noteErr]
  · have h1 : tail.filter Event.isRequest = [] := by
      rw [List.filter_eq_nil_iff]
      intro x hx
      obtain ⟨b, rfl⟩ := htail x hx
      simp [Event.isRequest]
    have h2 : tail.filter Event.isResponse = [] := by
      rw [List.filter_eq_nil_iff]
      intro x hx
      obtain ⟨b, rfl⟩ := htail x hx
      simp [Event.isResponse]
    have h3 : tail.filter (fun e => e.isRequest || e.isResponse) = [] := by
      rw [List.filter_eq_nil_iff]
      intro x hx
      obtain ⟨b, rfl⟩ := htail x hx
      simp [Event.isRequest, Event.isResponse]
    have h4 : ∀ x ∈ tail, x.isRequest = false ∧ x.isResponse = false := by
      intro x hx
      obtain ⟨b, rfl⟩ := htail x hx
      simp [Event.isRequest, Event.isResponse]
    refine ⟨?_, ?_, ?_, ?_, ?_, ?_⟩
    · simp [List.filter_cons, Event.isRequest, h1]
    · simp [List.filter_cons, Event.isResponse, Event.isSend, h2]
    · simp [SendPhaseOk, hok, hs, Event.isSend]
    · refine ⟨Event.ObserveRequest paramRequest.Id paramRequest.Method (some data) none, rfl,
        Or.inr ⟨Event.ObserveResponse paramRequest.Id paramRequest.Method
          (match env.reply with
            | some m => m.Data
            | none => none) none, rfl, ?_⟩⟩
      simp only [notifications, List.cons_append, List.nil_append, List.filter_cons, h3]
      simp [Event.isRequest, Event.isResponse]
    · intro x hx hq
      simp only [List.cons_append, List.nil_append, List.mem_cons] at hx
      rcases hx with rfl | rfl | rfl | rfl | rfl | hx
      all_goals first
        | (simp [Event.isRequest] at hq; done)
        | (simp [Event.noteErr, SendPhaseOk, hok, hs]; done)
        | (exact absurd hq (by simp [(h4 x hx).1]))
    · intro x hx hq
      simp only [List.cons_append, List.nil_append, List.mem_cons] at hx
      rcases hx with rfl | rfl | rfl | rfl | rfl | hx
      all_goals first
        | (simp [Event.isResponse] at hq; done)
        | (simp [Event.noteErr, SendPhaseOk, RecvPhaseOk, hok, hs, hr]; done)
        | (exact absurd hq (by simp [(h4 x hx).2]))

/-- C10: for every environment and request, the notifications of a call of either primitive
are one Request notification, followed by one Response notification exactly when the
outbound channel accepted the message; the Request notification has a nil error exactly
when the send phase succeeded, the Response notification exactly when the reply channel
delivered. -/
theorem C10_one_notification_per_phase (env : Env) (paramRequest : ParamRequest) :
    NotifiedOncePerPhase env paramRequest (SendCustomReturn env paramRequest).trace ∧
    NotifiedOncePerPhase env paramRequest (SendDefaultRequest env paramRequest).trace := by
  rcases hm : jsonMarshal paramRequest.fields with err | data
  · simp [NotifiedOncePerPhase, SendPhaseOk, RecvPhaseOk, notifications, SendCustomReturn,
      SendDefaultRequest, ChromeRequest_fields_eq, hm, Event.isRequest, Event.isResponse,
      Event.isSend, Event.noteErr]
  · exact ⟨notified_of_trace_shape env paramRequest data _ hm
        (trace_shape_SendCustomReturn env paramRequest data hm),
      notified_of_trace_shape env paramRequest data _ hm
        (trace_shape_SendDefaultRequest env paramRequest data hm)⟩

/-! ## The error text -/

theorem toDigitsCore_eq_digits (fuel : Nat) :
    ∀ (n : Nat) (ds : List Char), n < fuel →
      Nat.toDigitsCore 10 fuel n ds
        = (if n = 0 then ['0'] else (Nat.digits 10 n).reverse.map Nat.digitChar) ++ ds := by
  induction fuel with
  | zero => intro n ds h; omega
  | succ f ih =>
    intro n ds h
    unfold Nat.toDigitsCore
    by_cases hq : n / 10 = 0
    · have hlt : n < 10 := by omega
      have hmod : n % 10 = n := Nat.mod_eq_of_lt hlt
      simp only [hq, if_true, hmod]
      by_cases h0 : n = 0
      · subst h0; rfl
      · have hpos : 0 < n := Nat.pos_of_ne_zero h0
        rw [Nat.digits_def' (by decide) hpos, hq, hmod]
        simp [h0]
    · have hpos : 0 < n := by omega
      have h0 : n ≠ 0 := by omega
      have hlt : n / 10 < f := by omega
      simp only [hq, if_false]
      rw [ih (n / 10) _ hlt, Nat.digits_def' (by decide) hpos]
      simp [hq, h0]

theorem repr_eq_digits (n : Nat) :
    Nat.repr n
      = String.mk (if n = 0 then ['0'] else (Nat.digits 10 n).reverse.map Nat.digitChar) := by
  unfold Nat.repr Nat.toDigits
  rw [toDigitsCore_eq_digits (n + 1) n [] (Nat.lt_succ_self n)]
  simp [List.asString]

/-- The text of `strconv.FormatInt(i, 10)` is the base-10 rendering of `i`. -/
theorem FormatInt_eq_decimal (i : Int) : FormatInt i = decimal i := by
  unfold FormatInt decimal
  by_cases hneg : i < 0
  · have h0 : i ≠ 0 := by omega
    have hn : i.natAbs ≠ 0 := by omega
    simp only [hneg, if_true, h0, if_false, repr_eq_digits, hn]
    rfl
  · by_cases h0 : i = 0
    · subst h0; rfl
    · have hn : i.natAbs ≠ 0 := by omega
      simp only [hneg, if_false, h0, repr_eq_digits, hn, List.nil_append]

/-- C13: for a ChromeRequestErr whose Resp and Resp.Error are non-nil, Error() returns
"request " + decimal(Resp.Id) + " failed, code: " + decimal(Resp.Error.Code) + " msg: " +
Resp.Error.Message, with `decimal` the base-10 rendering of the signed integer. -/
theorem C13_request_error_text (Resp : Option ChromeErrorResponse)
    (resp : ChromeErrorResponse) (e : ChromeError)
    (hresp : Resp = some resp) (herr : resp.Error = some e) :
    ChromeRequestErr.Error Resp
      = some ("request " ++ decimal resp.Id ++ " failed, code: " ++ decimal e.Code
          ++ " msg: " ++ e.Message) := by
  subst hresp
  simp only [ChromeRequestErr.Error, herr, FormatInt_eq_decimal]

/-- The error of scenario 5: id 5, code -32000. -/
theorem C13_request_error_text_witness :
    decimal (-32000) = "-32000" ∧
    ChromeRequestErr.Error
        (some (ChromeErrorResponse.mk 5
          (some (ChromeError.mk (-32000) "No node with given id found"))))
      = some "request 5 failed, code: -32000 msg: No node with given id found" := by
  have h := C13_request_error_text
    (some (ChromeErrorResponse.mk 5
      (some (ChromeError.mk (-32000) "No node with given id found"))))
    (ChromeErrorResponse.mk 5 (some (ChromeError.mk (-32000) "No node with given id found")))
    (ChromeError.mk (-32000) "No node with given id found") rfl rfl
  have hd : decimal (-32000) = "-32000" := by
    rw [← FormatInt_eq_decimal]; rfl
  refine ⟨hd, ?_⟩
  rw [h, hd, ← FormatInt_eq_decimal]
  rfl

/-! ## The two primitives side by side -/

/-- Once the request is serialized the two primitives agree, apart from the text of one
error: they send the same messages; when no reply is delivered they return the same nil
result and the same error; their notifications are the same when the receive select is not
resolved by the context; and in every case their notifications are the same up to the text
of an `errors.New` error. When the request is not serialized each primitive returns the
error of its own call of `json.Marshal`. -/
theorem primitives_agree (env : Env) (paramRequest : ParamRequest) (data : String)
    (hm : jsonMarshal paramRequest.fields = Except.ok data) :
    sentMessages (SendCustomReturn env paramRequest).trace
      = sentMessages (SendDefaultRequest env paramRequest).trace ∧
    (¬ RecvPhaseOk env paramRequest →
      (SendCustomReturn env paramRequest).value = none ∧
      (SendDefaultRequest env paramRequest).value = none ∧
      (SendCustomReturn env paramRequest).err = (SendDefaultRequest env paramRequest).err) ∧
    (selectRecv env.recvReady env.recvPick ≠ SelectCase.ctxDone →
      notifications (SendCustomReturn env paramRequest).trace
        = notifications (SendDefaultRequest env paramRequest).trace) ∧
    (notifications (SendCustomReturn env paramRequest).trace).map Event.blankErrText
      = (notifications (SendDefaultRequest env paramRequest).trace).map
          Event.blankErrText := by
  have hok : ∃ d, jsonMarshal paramRequest.fields = Except.ok d := ⟨data, hm⟩
  cases hs : selectSend env.sendReady env.sendPick
  case comm =>
    cases hr : selectRecv env.recvReady env.recvPick
    case comm =>
      rcases hreply : env.reply with _ | m
      · simp [SendCustomReturn, SendDefaultRequest, ChromeRequest_fields_eq, hm, hs, hr,
          hreply, sentMessages, notifications, RecvPhaseOk, SendPhaseOk, Event.isRequest,
          Event.isResponse, Event.blankErrText]
      · rcases hd : m.Data with _ | bytes
        · simp [SendCustomReturn, SendDefaultRequest, ChromeRequest_fields_eq, hm, hs, hr,
            hreply, hd, sentMessages, notifications, RecvPhaseOk, SendPhaseOk,
            Event.isRequest, Event.isResponse, Event.blankErrText]
        · cases hu : unmarshalChromeResponse bytes <;>
            simp [SendCustomReturn, SendDefaultRequest, ChromeRequest_fields_eq, hm, hs, hr,
              hreply, hd, hu, sentMessages, notifications, RecvPhaseOk, SendPhaseOk,
              Event.isRequest, Event.isResponse, Event.blankErrText]
    all_goals
      simp [SendCustomReturn, SendDefaultRequest, ChromeRequest_fields_eq, hm, hs, hr,
        sentMessages, notifications, RecvPhaseOk, SendPhaseOk, Event.isRequest,
        Event.isResponse, Event.blankErrText]
  all_goals
    simp [SendCustomReturn, SendDefaultRequest, ChromeRequest_fields_eq, hm, hs,
      sentMessages, notifications, RecvPhaseOk, SendPhaseOk, Event.isRequest,
      Event.isResponse, Event.blankErrText]

/-- C14: with the message sent and the receive select resolved by the context, the
Response notification of `SendCustomReturn` carries the error "chrome is done" and that of
`SendDefaultRequest` the error "context is done": the two sequences of notifications do not
have the same arguments. -/
theorem C14_response_notifications_differ :
    notifications
        (SendCustomReturn (phaseEnv SelectCase.comm SelectCase.ctxDone none) fooRequest).trace
      = [Event.ObserveRequest 1 "Foo.bar"
           (some "\x7b\"id\":1,\"method\":\"Foo.bar\"\x7d") none,
         Event.ObserveResponse 1 "Foo.bar" none (some (GoError.New "chrome is done"))] ∧
    notifications
        (SendDefaultRequest (phaseEnv SelectCase.comm SelectCase.ctxDone none) fooRequest).trace
      = [Event.ObserveRequest 1 "Foo.bar"
           (some "\x7b\"id\":1,\"method\":\"Foo.bar\"\x7d") none,
         Event.ObserveResponse 1 "Foo.bar" none (some (GoError.New "context is done"))] ∧
    notifications
        (SendCustomReturn (phaseEnv SelectCase.comm SelectCase.ctxDone none) fooRequest).trace
      ≠ notifications
        (SendDefaultRequest (phaseEnv SelectCase.comm SelectCase.ctxDone none)
          fooRequest).trace := by
  refine ⟨rfl, rfl, ?_⟩
  decide

/-! ## Channels -/

theorem channel_discipline_of_trace_shape (env : Env) (paramRequest : ParamRequest)
    (data : String) (tr : List Event)
    (hm : jsonMarshal paramRequest.fields = Except.ok data)
    (h : TraceShape env paramRequest data tr) :
    ChannelDiscipline env paramRequest tr := by
  rcases h with ⟨_, e, rfl⟩ | ⟨_, _, e, rfl⟩ | ⟨_, _, tail, rfl, htail⟩
  · simp [ChannelDiscipline, sentMessages, receivedReplies, madeChans]
  · simp [ChannelDiscipline, sentMessages, receivedReplies, madeChans, hm]
  · have h1 : sentMessages tail = [] := by
      unfold sentMessages
      rw [List.filterMap_eq_nil_iff]
      intro x hx
      obtain ⟨b, rfl⟩ := htail x hx
      rfl
    have h2 : receivedReplies tail = [] := by
      unfold receivedReplies
      rw [List.filterMap_eq_nil_iff]
      intro x hx
      obtain ⟨b, rfl⟩ := htail x hx
      rfl
    have h3 : madeChans tail = [] := by
      unfold madeChans
      rw [List.filterMap_eq_nil_iff]
      intro x hx
      obtain ⟨b, rfl⟩ := htail x hx
      rfl
    unfold sentMessages at h1
    unfold receivedReplies at h2
    unfold madeChans at h3
    simp [ChannelDiscipline, sentMessages, receivedReplies, madeChans, hm,
      List.filterMap_append, h1, h2, h3]

/-- C15: for every environment and request, in the whole of a call of either primitive at
most one message is placed on the outbound channel and at most one is taken from a reply
channel; the message placed carries the Id of the request, the serialized request as Data
and the channel of capacity one that the call has made just before; the receive is from
that channel. The trace is all the call does: the source starts no goroutine and defers
nothing, so nothing is sent or received after the return. -/
theorem C15_one_send_one_receive (env : Env) (paramRequest : ParamRequest) :
    ChannelDiscipline env paramRequest (SendCustomReturn env paramRequest).trace ∧
    ChannelDiscipline env paramRequest (SendDefaultRequest env paramRequest).trace := by
  rcases hm : jsonMarshal paramRequest.fields with err | data
  · simp [ChannelDiscipline, sentMessages, receivedReplies, madeChans, SendCustomReturn,
      SendDefaultRequest, ChromeRequest_fields_eq, hm]
  · exact ⟨channel_discipline_of_trace_shape env paramRequest data _ hm
        (trace_shape_SendCustomReturn env paramRequest data hm),
      channel_discipline_of_trace_shape env paramRequest data _ hm
        (trace_shape_SendDefaultRequest env paramRequest data hm)⟩

/-! ## `DOMDebugger.GetEventListenersWithParams` -/

/-- An error envelope decodes into `chromeData` with its id in `Id`, its code and message in
`Error`, and no listeners. -/
theorem unmarshalEventListenersData_errorEnvelope {R : Type}
    (decodeRemoteObject : Option R → Json → Option R) (data : Option String)
    (i c : Int) (msg : String) (hi : IsInt64 i) (hc : IsInt64 c)
    (hp : parseJson (data.getD "") = some (errorEnvelope i c msg)) :
    jsonUnmarshalEventListenersData decodeRemoteObject data
      = Except.ok { toChromeErrorResponse := ⟨i, some ⟨c, msg⟩⟩, Listeners := none } := by
  have h1 : fieldMatch "id" "id" = true := by decide
  have h2 : fieldMatch "error" "id" = false := by decide
  have h3 : fieldMatch "error" "error" = true := by decide
  have h4 : fieldMatch "code" "code" = true := by decide
  have h5 : fieldMatch "message" "code" = false := by decide
  have h6 : fieldMatch "message" "message" = true := by decide
  simp [jsonUnmarshalEventListenersData, hp, errorEnvelope, decodeEventListenersDataFields,
    decodeChromeErrorPtr, decodeChromeErrorFields, decodeString, h1, h2, h3, h4, h5, h6,
    decodeInt64, toInt64_ofInt i hi, toInt64_ofInt c hc]

/-- After a delivery of a message, the results of `GetEventListenersWithParams` are those of
the decoder and of the test of the error field. -/
theorem GetEventListenersWithParams_of_delivers {R : Type}
    (decodeRemoteObject : Option R → Json → Option R) (env : Env) (nextId : Int)
    (v : Option DOMDebuggerGetEventListenersParams) (m : Message)
    (chromeData : GetEventListenersData R)
    (hdel : Delivers env (eventListenersRequest nextId v) (some m))
    (hdec : jsonUnmarshalEventListenersData decodeRemoteObject m.Data = Except.ok chromeData) :
    (∀ e, chromeData.toChromeErrorResponse.Error = some e →
      (GetEventListenersWithParams decodeRemoteObject env nextId v).value = none ∧
      (GetEventListenersWithParams decodeRemoteObject env nextId v).err
        = some (GoError.ChromeRequestErr
            (some ⟨chromeData.toChromeErrorResponse.Id, some e⟩))) ∧
    (chromeData.toChromeErrorResponse.Error = none →
      (GetEventListenersWithParams decodeRemoteObject env nextId v).value
        = chromeData.Listeners ∧
      (GetEventListenersWithParams decodeRemoteObject env nextId v).err = none) := by
  have h := SendCustomReturn_of_delivers env (eventListenersRequest nextId v) (some m) hdel
  simp only [eventListenersRequest] at h
  constructor
  · intro e he
    have hresp : chromeData.toChromeErrorResponse
        = ⟨chromeData.toChromeErrorResponse.Id, some e⟩ := by
      rw [← he]
    simp only [GetEventListenersWithParams, Target.SendCustomReturn, h.1, h.2, hdec, he]
    exact ⟨trivial, by rw [← hresp]⟩
  · intro he
    simp only [GetEventListenersWithParams, Target.SendCustomReturn, h.1, h.2, hdec, he]
    exact ⟨trivial, trivial⟩

/-- C12: for a non-nil reply delivered to the custom-return primitive whose Data decodes
to `chromeData`, `GetEventListenersWithParams` returns (nil, ChromeRequestErr) exactly when
the error field of `chromeData` is present, the Resp of the error then carrying the id, the
code and the message of the envelope; otherwise it returns the decoded listeners with a nil
error. A nil reply gives (nil, ChromeEmptyResponseErr). -/
theorem C12_event_listeners_envelope {R : Type}
    (decodeRemoteObject : Option R → Json → Option R) (env : Env) (nextId : Int)
    (v : Option DOMDebuggerGetEventListenersParams) (m : Message)
    (chromeData : GetEventListenersData R)
    (hdel : Delivers env (eventListenersRequest nextId v) (some m))
    (hdec : jsonUnmarshalEventListenersData decodeRemoteObject m.Data = Except.ok chromeData) :
    ((∃ resp, (GetEventListenersWithParams decodeRemoteObject env nextId v).err
        = some (GoError.ChromeRequestErr resp))
      ↔ chromeData.toChromeErrorResponse.Error ≠ none) ∧
    (∀ e, chromeData.toChromeErrorResponse.Error = some e →
      (GetEventListenersWithParams decodeRemoteObject env nextId v).value = none ∧
      (GetEventListenersWithParams decodeRemoteObject env nextId v).err
        = some (GoError.ChromeRequestErr
            (some ⟨chromeData.toChromeErrorResponse.Id, some e⟩))) ∧
    (∀ i c msg, IsInt64 i → IsInt64 c →
      parseJson (m.Data.getD "") = some (errorEnvelope i c msg) →
      (GetEventListenersWithParams decodeRemoteObject env nextId v).value = none ∧
      (GetEventListenersWithParams decodeRemoteObject env nextId v).err
        = some (GoError.ChromeRequestErr (some ⟨i, some ⟨c, msg⟩⟩))) ∧
    (chromeData.toChromeErrorResponse.Error = none →
      (GetEventListenersWithParams decodeRemoteObject env nextId v).value
        = chromeData.Listeners ∧
      (GetEventListenersWithParams decodeRemoteObject env nextId v).err = none) ∧
    (∀ env0, Delivers env0 (eventListenersRequest nextId v) none →
      (GetEventListenersWithParams decodeRemoteObject env0 nextId v).Fails
        GoError.ChromeEmptyResponseErr) := by
  have h := GetEventListenersWithParams_of_delivers decodeRemoteObject env nextId v m
    chromeData hdel hdec
  refine ⟨?_, h.1, ?_, h.2, ?_⟩
  · constructor
    · rintro ⟨resp, hresp⟩ hnone
      rw [(h.2 hnone).2] at hresp
      exact Option.noConfusion hresp
    · intro hsome
      cases he : chromeData.toChromeErrorResponse.Error with
      | none => exact absurd he hsome
      | some e => exact ⟨_, (h.1 e he).2⟩
  · intro i c msg hi hc hp
    have hd := unmarshalEventListenersData_errorEnvelope decodeRemoteObject m.Data i c msg
      hi hc hp
    exact (GetEventListenersWithParams_of_delivers decodeRemoteObject env nextId v m _ hdel
      hd).1 ⟨c, msg⟩ rfl
  · intro env0 hdel0
    have h0 := SendCustomReturn_of_delivers env0 (eventListenersRequest nextId v) none hdel0
    simp only [eventListenersRequest] at h0
    simp only [Returned.Fails, GetEventListenersWithParams, Target.SendCustomReturn, h0.1,
      h0.2]
    exact ⟨trivial, trivial⟩

/-- The replies of scenario 5 (an error envelope) and of a call that finds one listener,
and a nil reply. -/
theorem C12_event_listeners_envelope_witness :
    (GetEventListenersWithParams genericRemoteObject
        (deliveringEnv (some (replyMessage 5 (some errorReply)))) 5 listenersParams).Fails
      (GoError.ChromeRequestErr (some (ChromeErrorResponse.mk 5
        (some (ChromeError.mk (-32000) "No node with given id found"))))) ∧
    ((GetEventListenersWithParams genericRemoteObject
        (deliveringEnv (some (replyMessage 7 (some listenersReply)))) 7 listenersParams).value
      = some [some { DOMDebuggerEventListener.zero GoValue with
          EventType := "click", UseCapture := true, LineNumber := 12 }] ∧
    (GetEventListenersWithParams genericRemoteObject
        (deliveringEnv (some (replyMessage 7 (some listenersReply)))) 7 listenersParams).err
      = none) ∧
    (GetEventListenersWithParams genericRemoteObject (deliveringEnv none) 5
        listenersParams).Fails GoError.ChromeEmptyResponseErr := by
  have h1 := C12_event_listeners_envelope genericRemoteObject
    (deliveringEnv (some (replyMessage 5 (some errorReply)))) 5 listenersParams
    (replyMessage 5 (some errorReply))
    { toChromeErrorResponse := ⟨5, some ⟨-32000, "No node with given id found"⟩⟩,
      Listeners := none }
    ⟨⟨_, rfl⟩, rfl, rfl, rfl⟩ rfl
  have h2 := C12_event_listeners_envelope genericRemoteObject
    (deliveringEnv (some (replyMessage 7 (some listenersReply)))) 7 listenersParams
    (replyMessage 7 (some listenersReply))
    { toChromeErrorResponse := ⟨7, none⟩,
      Listeners := some [some { DOMDebuggerEventListener.zero GoValue with
          EventType := "click", UseCapture := true, LineNumber := 12 }] }
    ⟨⟨_, rfl⟩, rfl, rfl, rfl⟩ rfl
  exact ⟨h1.2.1 _ rfl, h2.2.2.2.1 rfl,
    h1.2.2.2.2 (deliveringEnv none) ⟨⟨_, rfl⟩, rfl, rfl, rfl⟩⟩

/-! ## Decoding a response envelope and encoding it again -/

theorem sameNumber_refl (a : JNumber) : a.sameNumber a := rfl

theorem mapInsert_of_not_mem (k : String) (g : GoValue) :
    ∀ (acc : List (String × GoValue)), k ∉ acc.map Prod.fst →
      mapInsert k g acc = acc ++ [(k, g)]
  | [], _ => rfl
  | (k1, v1) :: rest, h => by
    have hne : k1 ≠ k := by
      intro he
      exact h (by simp [he])
    have hrest : k ∉ rest.map Prod.fst := by
      intro hm
      exact h (by simp [hm])
    simp [mapInsert, hne, mapInsert_of_not_mem k g rest hrest]

mutual
/-- A value that survives is decoded, and the encoding of what it is decoded to is the same
JSON value. -/
theorem decode_encode : ∀ (r : Json), Survives r →
    ∃ v, decodeAny r = some v ∧ SameValue (encodeAny v) r
  | Json.null, _ => ⟨GoValue.nil, by simp [decodeAny], by simp [encodeAny, SameValue.null]⟩
  | Json.bool b, _ =>
    ⟨GoValue.bool b, by simp [decodeAny], by simp [encodeAny, SameValue.bool]⟩
  | Json.num n, h => by
    simp only [Survives] at h
    exact ⟨GoValue.float64 n, by simp [decodeAny, h.1],
      by simp only [encodeAny]; exact SameValue.num _ _ h.2⟩
  | Json.str s, _ =>
    ⟨GoValue.string s, by simp [decodeAny], by simp [encodeAny, SameValue.str]⟩
  | Json.arr xs, h => by
    simp only [Survives] at h
    obtain ⟨vs, hd, hs⟩ := decode_encode_elements xs h
    exact ⟨GoValue.slice vs, by simp [decodeAny, hd],
      by simp only [encodeAny]; exact SameValue.arr _ _ hs⟩
  | Json.obj kvs, h => by
    simp only [Survives] at h
    obtain ⟨tail, hd, hs⟩ := decode_encode_members kvs h.1 h.2 [] (by simp)
    simp only [List.nil_append] at hd
    refine ⟨GoValue.map tail, by simp [decodeAny, hd], ?_⟩
    simp only [encodeAny]
    exact SameValue.obj _ _ _ (List.perm_insertionSort keyLe _) hs
theorem decode_encode_elements : ∀ (xs : List Json), SurviveElements xs →
    ∃ vs, decodeElements xs = some vs ∧ SameElements (encodeElements vs) xs
  | [], _ => ⟨[], by simp [decodeElements], by simp [encodeElements, SameElements.nil]⟩
  | x :: xs, h => by
    simp only [SurviveElements] at h
    obtain ⟨v, hd, hs⟩ := decode_encode x h.1
    obtain ⟨vs, hds, hss⟩ := decode_encode_elements xs h.2
    exact ⟨v :: vs, by simp [decodeElements, hd, hds],
      by simp only [encodeElements]; exact SameElements.cons _ _ _ _ hs hss⟩
theorem decode_encode_members : ∀ (kvs : List (String × Json)), SurviveMembers kvs →
    (memberKeys kvs).Nodup → ∀ (acc : List (String × GoValue)),
    (∀ k ∈ memberKeys kvs, k ∉ acc.map Prod.fst) →
    ∃ tail, decodeMembers kvs acc = some (acc ++ tail) ∧
      SameMembers (encodeEntries tail) kvs
  | [], _, _, acc, _ =>
    ⟨[], by simp [decodeMembers], by simp [encodeEntries, SameMembers.nil]⟩
  | (k, x) :: rest, h, hnd, acc, hdis => by
    simp only [SurviveMembers] at h
    simp only [memberKeys, List.nodup_cons] at hnd
    obtain ⟨v, hd, hs⟩ := decode_encode x h.1
    have hk : k ∉ acc.map Prod.fst := hdis k (by simp [memberKeys])
    have hdis1 : ∀ k1 ∈ memberKeys rest, k1 ∉ (acc ++ [(k, v)]).map Prod.fst := by
      intro k1 hk1
      have h1 := hdis k1 (by simp [memberKeys, hk1])
      have h2 : k1 ≠ k := by
        intro he
        exact hnd.1 (he ▸ hk1)
      simp only [List.map_append, List.map_cons, List.map_nil, List.mem_append,
        List.mem_singleton, not_or]
      exact ⟨h1, h2⟩
    obtain ⟨tail, hdt, hst⟩ := decode_encode_members rest h.2 hnd.2 (acc ++ [(k, v)]) hdis1
    refine ⟨(k, v) :: tail, ?_, ?_⟩
    · simp only [decodeMembers, hd, mapInsert_of_not_mem k v acc hk, hdt]
      simp
    · simp only [encodeEntries]
      exact SameMembers.cons _ _ _ _ _ hs hst
end

theorem sameMembers_lookup : ∀ {l r : List (String × Json)}, SameMembers l r →
    ∀ (k : String) (y : Json), (k, y) ∈ r → ∃ x, (k, x) ∈ l ∧ SameValue x y
  | _, _, SameMembers.nil, _, _, h => by simp at h
  | _, _, SameMembers.cons k0 x0 y0 l r hx hrest, k, y, h => by
    rcases List.mem_cons.mp h with heq | hmem
    · simp only [Prod.mk.injEq] at heq
      obtain ⟨hk, hy⟩ := heq
      subst hk
      subst hy
      exact ⟨x0, List.mem_cons_self _ _, hx⟩
    · obtain ⟨x, hx1, hs⟩ := sameMembers_lookup hrest k y hmem
      exact ⟨x, List.mem_cons_of_mem _ hx1, hs⟩

/-- Every member of the right-hand object has a member of the same key and the same value
in the left-hand one. -/
theorem sameValue_obj_lookup {l r : List (String × Json)}
    (h : SameValue (Json.obj l) (Json.obj r)) (k : String) (y : Json) (hm : (k, y) ∈ r) :
    ∃ x, (k, x) ∈ l ∧ SameValue x y := by
  cases h with
  | obj _ l1 _ hperm hmem =>
    obtain ⟨x, hx, hs⟩ := sameMembers_lookup hmem k y hm
    exact ⟨x, hperm.mem_iff.mpr hx, hs⟩

theorem sameValue_num {a b : JNumber} (h : SameValue (Json.num a) (Json.num b)) :
    a.sameNumber b := by
  cases h with
  | num _ _ hs => exact hs

/-- C11, as stated, fails. A failure envelope decodes into a ChromeResponse with a nil
Result, which encodes to `{"id":5,"result":null}`: the error member is lost. A success
envelope whose result is `2^53 + 1` comes back with the result `2^53`, the float64 nearest
to it. A success envelope whose result repeats a key comes back with the last value of
that key only. A success envelope whose result is `1e400`, beyond the range of float64, is
not decoded, nor is one whose result is 10001 arrays one inside the other, nor one whose
id is `2^63` or is written `1.0`. A success envelope whose result is written `"\ud800"`, with the escape of a
surrogate that has no partner, is decoded to the same response as the one whose result is
`"\ufffd"`, and comes back with the character U+FFFD. -/
theorem C11_round_trip_counterexample :
    (parseJson errorReply = some (errorEnvelope 5 (-32000) "No node with given id found") ∧
      unmarshalChromeResponse errorReply = Except.ok (ChromeResponse.mk 5 GoValue.nil) ∧
      (ChromeResponse.mk 5 GoValue.nil).toJson
        = Json.obj [("id", Json.num (JNumber.ofInt 5)), ("result", Json.null)] ∧
      ¬ SameValue (ChromeResponse.mk 5 GoValue.nil).toJson
          (errorEnvelope 5 (-32000) "No node with given id found")) ∧
    (parseJson bigNumberReply
        = some (successEnvelope 1 (Json.num (JNumber.ofInt 9007199254740993))) ∧
      unmarshalChromeResponse bigNumberReply
        = Except.ok (ChromeResponse.mk 1 (GoValue.float64 (JNumber.ofInt 9007199254740993))) ∧
      (ChromeResponse.mk 1 (GoValue.float64 (JNumber.ofInt 9007199254740993))).toJson
        = Json.obj [("id", Json.num (JNumber.ofInt 1)),
            ("result", Json.num (JNumber.mk false 9007199254740992 [] (some 0)))] ∧
      ¬ SameValue
          (ChromeResponse.mk 1 (GoValue.float64 (JNumber.ofInt 9007199254740993))).toJson
          (successEnvelope 1 (Json.num (JNumber.ofInt 9007199254740993)))) ∧
    (parseJson repeatedKeyReply
        = some (successEnvelope 1 (Json.obj [("a", Json.num (JNumber.ofInt 1)),
            ("a", Json.num (JNumber.ofInt 2))])) ∧
      unmarshalChromeResponse repeatedKeyReply
        = Except.ok (ChromeResponse.mk 1
            (GoValue.map [("a", GoValue.float64 (JNumber.ofInt 2))])) ∧
      (ChromeResponse.mk 1 (GoValue.map [("a", GoValue.float64 (JNumber.ofInt 2))])).toJson
        = Json.obj [("id", Json.num (JNumber.ofInt 1)),
            ("result", Json.obj [("a", Json.num (JNumber.mk false 2 [] (some 0)))])] ∧
      ¬ SameValue
          (ChromeResponse.mk 1 (GoValue.map [("a", GoValue.float64 (JNumber.ofInt 2))])).toJson
          (successEnvelope 1 (Json.obj [("a", Json.num (JNumber.ofInt 1)),
            ("a", Json.num (JNumber.ofInt 2))]))) ∧
    (denoteJson hugeNumberReply
        = some (successEnvelope 1 (Json.num (JNumber.mk false 1 [] (some 400)))) ∧
      unmarshalChromeResponse hugeNumberReply = Except.error GoError.JsonUnmarshal ∧
      unmarshalChromeResponse (nestedArraysReply 10001)
        = Except.error GoError.JsonUnmarshal ∧
      denoteJson bigIdReply = some (successEnvelope 9223372036854775808 Json.null) ∧
      unmarshalChromeResponse bigIdReply = Except.error GoError.JsonUnmarshal ∧
      denoteJson fractionIdReply
        = some (Json.obj [("id", Json.num (JNumber.mk false 1 [0] none)),
            ("result", Json.null)]) ∧
      unmarshalChromeResponse fractionIdReply = Except.error GoError.JsonUnmarshal) ∧
    (denoteJson loneSurrogateReply = none ∧
      unmarshalChromeResponse loneSurrogateReply
        = Except.ok (ChromeResponse.mk 1 (GoValue.string (String.mk [replacementChar]))) ∧
      denoteJson replacementReply
        = some (successEnvelope 1 (Json.str (String.mk [replacementChar]))) ∧
      unmarshalChromeResponse replacementReply
        = Except.ok (ChromeResponse.mk 1 (GoValue.string (String.mk [replacementChar]))) ∧
      (ChromeResponse.mk 1 (GoValue.string (String.mk [replacementChar]))).toJson
        = successEnvelope 1 (Json.str (String.mk [replacementChar]))) := by
  refine ⟨⟨rfl, rfl, rfl, ?_⟩, ⟨rfl, rfl, rfl, ?_⟩, ⟨rfl, rfl, rfl, ?_⟩,
    ⟨rfl, unmarshal_hugeNumberReply, unmarshal_nestedArraysReply 10001 (by omega), rfl, rfl,
      rfl, rfl⟩,
    ⟨rfl, rfl, rfl, rfl, rfl⟩⟩
  · intro h
    obtain ⟨x, hx, _⟩ := sameValue_obj_lookup h "error"
      (Json.obj [("code", Json.num (JNumber.ofInt (-32000))),
        ("message", Json.str "No node with given id found")])
      (by simp [errorEnvelope])
    simp [ChromeResponse.toJson] at hx
  · intro h
    have hj : (ChromeResponse.mk 1
          (GoValue.float64 (JNumber.ofInt 9007199254740993))).toJson
        = Json.obj [("id", Json.num (JNumber.ofInt 1)),
            ("result", Json.num (JNumber.mk false 9007199254740992 [] (some 0)))] := rfl
    rw [hj] at h
    obtain ⟨x, hx, hs⟩ := sameValue_obj_lookup h "result"
      (Json.num (JNumber.ofInt 9007199254740993)) (by simp [successEnvelope])
    simp only [List.mem_cons, Prod.mk.injEq, List.mem_singleton, List.not_mem_nil,
      or_false] at hx
    rcases hx with ⟨hk, _⟩ | ⟨_, hx⟩
    · exact absurd hk (by decide)
    · subst hx
      exact absurd (sameValue_num hs) (by decide)
  · intro h
    have hj : (ChromeResponse.mk 1
          (GoValue.map [("a", GoValue.float64 (JNumber.ofInt 2))])).toJson
        = Json.obj [("id", Json.num (JNumber.ofInt 1)),
            ("result", Json.obj [("a", Json.num (JNumber.mk false 2 [] (some 0)))])] := rfl
    rw [hj] at h
    obtain ⟨x, hx, hs⟩ := sameValue_obj_lookup h "result"
      (Json.obj [("a", Json.num (JNumber.ofInt 1)), ("a", Json.num (JNumber.ofInt 2))])
      (by simp [successEnvelope])
    simp only [List.mem_cons, Prod.mk.injEq, List.mem_singleton, List.not_mem_nil,
      or_false] at hx
    rcases hx with ⟨hk, _⟩ | ⟨_, hx⟩
    · exact absurd hk (by decide)
    · subst hx
      obtain ⟨y, hy, hsy⟩ := sameValue_obj_lookup hs "a" (Json.num (JNumber.ofInt 1))
        (by simp)
      simp only [List.mem_cons, Prod.mk.injEq, List.mem_singleton, List.not_mem_nil,
        or_false, true_and] at hy
      subst hy
      exact absurd (sameValue_num hsy) (by decide)

/-- C11, amended: a text that denotes a success envelope with an int64 id whose result
survives - no object in it repeats a key, every number in it is within the range of float64
and is the number the encoder writes for the float64 it converts to - is decoded into a
ChromeResponse, and the encoding of that ChromeResponse is the same JSON value as the
envelope. A text denotes a value when it is nested at most 10000 deep and each of its
escaped surrogates stands in a pair. -/
theorem C11_success_envelope_round_trip (bytes : String) (x : Json) (i : Int) (r : Json)
    (hx : denoteJson bytes = some x) (he : IsSuccessEnvelope x i r)
    (hi : IsInt64 i) (hs : Survives r) :
    ∃ resp, unmarshalChromeResponse bytes = Except.ok resp ∧ SameValue resp.toJson x := by
  obtain ⟨v, hd, hsame⟩ := decode_encode r hs
  have hp := parseJson_of_denoteJson bytes x hx
  refine ⟨ChromeResponse.mk i v, unmarshal_of_isSuccessEnvelope bytes x i r v hp he hi hd, ?_⟩
  have hsame2 : SameMembers
      [("id", Json.num (JNumber.ofInt i)), ("result", encodeAny v)]
      [("id", Json.num (JNumber.ofInt i)), ("result", r)] :=
    SameMembers.cons _ _ _ _ _ (SameValue.num _ _ (sameNumber_refl _))
      (SameMembers.cons _ _ _ _ _ hsame SameMembers.nil)
  rcases he with he | he
  · subst he
    unfold ChromeResponse.toJson successEnvelope
    exact SameValue.obj _ _ _ (List.Perm.refl _) hsame2
  · subst he
    unfold ChromeResponse.toJson successEnvelopeSwapped
    exact SameValue.obj _ _ _ (List.Perm.swap _ _ _)
      (SameMembers.cons _ _ _ _ _ hsame
        (SameMembers.cons _ _ _ _ _ (SameValue.num _ _ (sameNumber_refl _)) SameMembers.nil))

/-- The reply `{"id":1,"result":{"b":[0.5,"x",null],"a":{"n":-32000}}}` comes back with the
members of its result in the order of their keys, and the reply
`{"id":1,"result":"\ud83d\ude00"}` with its result, the character U+1F600. -/
theorem C11_success_envelope_round_trip_witness :
    (∃ resp, unmarshalChromeResponse nestedReply = Except.ok resp ∧
      SameValue resp.toJson
        (successEnvelope 1 (Json.obj [
          ("b", Json.arr [Json.num (JNumber.mk false 0 [5] none), Json.str "x", Json.null]),
          ("a", Json.obj [("n", Json.num (JNumber.ofInt (-32000)))])]))) ∧
    (∃ resp, unmarshalChromeResponse pairedSurrogateReply = Except.ok resp ∧
      SameValue resp.toJson
        (successEnvelope 1 (Json.str (String.mk [Char.ofNat 128512])))) := by
  have h1 : encodeFloat64 (JNumber.mk false 0 [5] none)
      = JNumber.mk false 5 [] (some (-1)) := rfl
  have h2 : encodeFloat64 (JNumber.ofInt (-32000)) = JNumber.mk true 32 [] (some 3) := rfl
  have h3 : (JNumber.mk false 0 [5] none).inFloat64Range = true := rfl
  have h4 : (JNumber.ofInt (-32000)).inFloat64Range = true := rfl
  exact ⟨C11_success_envelope_round_trip nestedReply _ 1 _ rfl (Or.inl rfl) (by decide)
    (by
      simp only [Survives, SurviveMembers, SurviveElements, memberKeys, h1, h2, h3, h4]
      decide),
    C11_success_envelope_round_trip pairedSurrogateReply _ 1 _ rfl (Or.inl rfl) (by decide)
      (by simp only [Survives])⟩

end Gcd
